import Mathlib

/-!
The fetch, score and report pipeline of ai-rss-scraper.

A shallow embedding of the Go sources `pkg/storage/db.go`, `pkg/utils/utils.go`,
`internal/commands/fetch.go`, `internal/commands/score.go` and
`internal/commands/report.go`, followed by theorems about them.

Modelling conventions.

* A Go `string` is a sequence of bytes (`GoString`); `str` gives the UTF-8 bytes of a
  literal.
* The SQLite table `articles` is the list of its rows in scan order, each row a
  `storage.Article`.  Every statement of this program that writes a text column binds a Go
  string, so a column of a row is never NULL.  Driver and I/O failures of the database are
  left out: a store operation fails only where SQL itself makes it fail (the PRIMARY KEY
  constraint on `guid`).
* `time.Time` values are instants counted in nanoseconds (`Int`); `published_date` is
  compared as an instant.
* What lies outside the repository (feed parser, HTML sanitizer, text templates, the
  chat-completion service, the file system, the mail transport) is a field of an
  environment record.
-/

namespace Scraper

deriving instance DecidableEq for Except

/-! ## Go strings -/

/-- A Go string: a read-only sequence of bytes. -/
abbrev GoString := List UInt8

/-- UTF-8 bytes of a string literal. -/
def str (s : String) : GoString := s.data.flatMap String.utf8EncodeChar

/-- Regular-expression class `\d` of Go (RE2): the ASCII digits `0`..`9`. -/
def isDigit (b : UInt8) : Bool := decide (48 ≤ b.toNat) && decide (b.toNat ≤ 57)

/-- Regular-expression class `\s` of Go (RE2): tab, line feed, form feed, carriage return
and space. -/
def isSpace (b : UInt8) : Bool :=
  b.toNat == 9 || b.toNat == 10 || b.toNat == 12 || b.toNat == 13 || b.toNat == 32

/-- `stripPrefix p t` removes the bytes `p` from the front of `t`. -/
def stripPrefix : GoString → GoString → Option GoString
  | [], t => some t
  | _ :: _, [] => none
  | p :: ps, c :: t => if p = c then stripPrefix ps t else none

/-- The encodings that a lower-case ASCII letter of a pattern matches under the `(?i)` flag
of Go's `regexp`: the letter, its upper-case form, and the further members of its Unicode
simple-folding orbit (U+017F LATIN SMALL LETTER LONG S for `s`, U+212A KELVIN SIGN for `k`),
the latter as UTF-8. Any other byte matches itself. -/
def foldVariants (p : UInt8) : List GoString :=
  if p.toNat = 115 then [[115], [83], [0xC5, 0xBF]]
  else if p.toNat = 107 then [[107], [75], [0xE2, 0x84, 0xAA]]
  else if 97 ≤ p.toNat ∧ p.toNat ≤ 122 then [[p], [UInt8.ofNat (p.toNat - 32)]]
  else [[p]]

/-- Match the literal `pat` case-insensitively at the front of `t`; the rest of `t` on
success. -/
def matchFold : GoString → GoString → Option GoString
  | [], t => some t
  | p :: ps, t =>
    match (foldVariants p).findSome? (fun v => stripPrefix v t) with
    | some r => matchFold ps r
    | none => none

/-- The regular expression `(?i)(?:score|rating):\s*(\d+)` anchored at the front of `t`:
the text of capture group 1 when it matches. `\s*` and `\d+` are greedy. -/
def scoreRegexAt (t : GoString) : Option GoString :=
  match (matchFold (str "score") t).orElse (fun _ => matchFold (str "rating") t) with
  | some (58 :: r) =>
    let ds := (r.dropWhile isSpace).takeWhile isDigit
    if ds.isEmpty then none else some ds
  | _ => none

/-- `scoreRegex.FindStringSubmatch(content)[1]`: group 1 of the leftmost match. -/
def scoreRegexFind : GoString → Option GoString
  | [] => none
  | c :: cs =>
    match scoreRegexAt (c :: cs) with
    | some d => some d
    | none => scoreRegexFind cs

/-- `fallbackRegex.FindStringSubmatch(content)[1]` for the expression `(\d+)`: the first
maximal run of digits. -/
def fallbackFind (t : GoString) : Option GoString :=
  let ds := (t.dropWhile (fun c => !isDigit c)).takeWhile isDigit
  if ds.isEmpty then none else some ds

/-- The score extraction of `scoreArticles` (score.go, lines 141-153). -/
def extractScore (content : GoString) : GoString :=
  match scoreRegexFind content with
  | some d => d
  | none =>
    match fallbackFind content with
    | some d => d
    | none => str "N/A"

/-- Decimal value of a run of digits, most significant first. -/
def digitsValue (ds : GoString) : Nat :=
  ds.foldl (fun n b => n * 10 + (b.toNat - 48)) 0

/-- Size of Go's `int` in bits on the platforms the program is built for. -/
def intSize : Nat := 64

/-- `strconv.Atoi` of the Go standard library: an optional sign followed by one or more
decimal digits, with a range error when the value does not fit an `int`. -/
def Atoi (s : GoString) : Except String Int :=
  let neg : Bool := s.head? == some 45
  let body : GoString := if s.head? == some 45 || s.head? == some 43 then s.tail else s
  if body.isEmpty || !body.all isDigit then .error "invalid syntax"
  else
    let v : Int := if neg then -(digitsValue body : Int) else (digitsValue body : Int)
    if v < -(2 : Int) ^ (intSize - 1) ∨ (2 : Int) ^ (intSize - 1) - 1 < v then
      .error "value out of range"
    else .ok v

/-- `utils.TrimString`: `s[:max]` when `len(s) > max`, else `s`. The bound is a natural
number: both call sites pass the constant 4096. -/
def TrimString (s : GoString) (max : Nat) : GoString :=
  if s.length > max then s.take max else s

/-- Wrap-around of a signed 64-bit result. -/
def wrap64 (x : Int) : Int := (x + 2 ^ 63) % 2 ^ 64 - 2 ^ 63

/-! ## pkg/storage -/

/-- Row type `storage.Article`. -/
structure Article where
  GUID : GoString
  Title : GoString
  Link : GoString
  Description : GoString
  Content : GoString
  PublishedDate : Int
  Score : GoString
  Analysis : GoString
  FeedURL : GoString
  Model : GoString
  Reported : Bool
  deriving DecidableEq, Repr

/-- The table `articles`: its rows in scan order. -/
abbrev DB := List Article

/-- Translation of a glob to a LIKE pattern: `*` to `%`, then `?` to `_`. -/
def globToLike (pattern : GoString) : GoString :=
  (pattern.map (fun b => if b = 42 then 37 else b)).map (fun b => if b = 63 then 95 else b)

/-- ASCII lower-casing, as SQLite's LIKE applies it to both sides. -/
def asciiLower (b : UInt8) : UInt8 :=
  if 65 ≤ b.toNat ∧ b.toNat ≤ 90 then UInt8.ofNat (b.toNat + 32) else b

/-- One character for `_` in LIKE: a byte, together with the continuation bytes
(`0x80`..`0xBF`) that follow it when it is `0xC0` or above. -/
def skipUtf8 : GoString → Option GoString
  | [] => none
  | c :: cs =>
    if 0xC0 ≤ c.toNat then some (cs.dropWhile (fun b => decide (0x80 ≤ b.toNat ∧ b.toNat ≤ 0xBF)))
    else some cs

mutual
/-- SQLite's `text LIKE pattern` without ESCAPE: `_` takes one character of the text, `%`
hands over to `sqlLikeAll`, and every other byte matches itself up to ASCII case. Pattern
and text are compared byte by byte, which on well-formed UTF-8 is SQLite's comparison of
code points. -/
def sqlLike : GoString → GoString → Bool
  | [], t => t.isEmpty
  | p :: ps, t =>
    if p = 37 then sqlLikeAll ps t
    else if p = 95 then
      match skipUtf8 t with
      | some r => sqlLike ps r
      | none => false
    else
      match t with
      | [] => false
      | c :: cs => asciiLower p == asciiLower c && sqlLike ps cs
/-- The pattern behind a `%`: further `%` are skipped and every `_` takes one whole
character off the text; a pattern that ends there matches, and otherwise the text is
searched for the next byte of the pattern and matching goes on behind each occurrence. -/
def sqlLikeAll : GoString → GoString → Bool
  | [], _ => true
  | p :: ps, t =>
    if p = 37 then sqlLikeAll ps t
    else if p = 95 then
      match skipUtf8 t with
      | some r => sqlLikeAll ps r
      | none => false
    else
      t.tails.any (fun u =>
        match u with
        | [] => false
        | c :: cs => asciiLower p == asciiLower c && sqlLike ps cs)
end

/-- The columns read by a ten-column `Scan`: `reported` is not selected and the field keeps
its zero value. -/
def scanTen (a : Article) : Article := { a with Reported := false }

/-- The condition `score IS NULL OR score = '' OR score = 'N/A'` on a row. -/
def unscored (a : Article) : Bool := a.Score == [] || a.Score == str "N/A"

/-- Order of `ORDER BY published_date DESC`. -/
def newerFirst (a b : Article) : Prop := b.PublishedDate ≤ a.PublishedDate

instance : DecidableRel newerFirst := fun a b => Int.decLe b.PublishedDate a.PublishedDate

instance : IsTotal Article newerFirst := ⟨fun a b => Int.le_total b.PublishedDate a.PublishedDate⟩

instance : IsTrans Article newerFirst := ⟨fun _ _ _ hab hbc => Int.le_trans hbc hab⟩

/-- `DB.ArticleExists`. -/
def DB.ArticleExists (d : DB) (guid : GoString) : Except String Bool :=
  .ok (d.any (fun a => a.GUID == guid))

/-- `DB.SaveArticle`: an INSERT of ten columns; `reported` takes its default 0, and a guid
that is already present violates the PRIMARY KEY. -/
def DB.SaveArticle (d : DB) (article : Article) : Except String DB :=
  if d.any (fun a => a.GUID == article.GUID) then .error "UNIQUE constraint failed: articles.guid"
  else .ok (d ++ [{ article with Reported := false }])

/-- `DB.GetArticlesToScore`. -/
def DB.GetArticlesToScore (d : DB) (refreshPattern : GoString) : Except String (List Article) :=
  if refreshPattern ≠ [] then
    let likePattern := globToLike refreshPattern
    .ok ((d.filter (fun a => unscored a || sqlLike likePattern a.Title)).map scanTen)
  else
    .ok ((d.filter unscored).map scanTen)

/-- `DB.UpdateArticleScore`: `UPDATE articles SET score, analysis, model WHERE guid = ?`. -/
def DB.UpdateArticleScore (d : DB) (guid score analysis model : GoString) : Except String DB :=
  .ok (d.map (fun a =>
    if a.GUID = guid then { a with Score := score, Analysis := analysis, Model := model } else a))

/-- `DB.GetArticlesAfter`. -/
def DB.GetArticlesAfter (d : DB) (since : Int) : Except String (List Article) :=
  .ok ((d.filter (fun a => decide (since ≤ a.PublishedDate))).insertionSort newerFirst)

/-- `DB.GetUnreportedArticlesAfter`. -/
def DB.GetUnreportedArticlesAfter (d : DB) (since : Int) : Except String (List Article) :=
  .ok ((d.filter (fun a => decide (since ≤ a.PublishedDate) && !a.Reported)).insertionSort
    newerFirst)

/-- `DB.MarkArticlesReported`. -/
def DB.MarkArticlesReported (d : DB) (guids : List GoString) : Except String DB :=
  if guids.length = 0 then .ok d
  else .ok (d.map (fun a => if a.GUID ∈ guids then { a with Reported := true } else a))

/-- `DB.ResetReported`: `UPDATE articles SET reported = 0 WHERE title LIKE ?`. The count is
`RowsAffected`, the number of rows the WHERE clause matches. -/
def DB.ResetReported (d : DB) (pattern : GoString) : Except String (DB × Nat) :=
  let likePattern := globToLike pattern
  .ok (d.map (fun a => if sqlLike likePattern a.Title then { a with Reported := false } else a),
    (d.filter (fun a => sqlLike likePattern a.Title)).length)

/-- `DB.ResetReportedArticles`. -/
def DB.ResetReportedArticles (d : DB) (guids : List GoString) : Except String DB :=
  if guids.length = 0 then .ok d
  else .ok (d.map (fun a => if a.GUID ∈ guids then { a with Reported := false } else a))

/-- `DB.ClearScores`. -/
def DB.ClearScores (d : DB) (guids : List GoString) : Except String DB :=
  if guids.length = 0 then .ok d
  else .ok (d.map (fun a =>
    if a.GUID ∈ guids then { a with Score := [], Analysis := [], Model := [] } else a))

/-- `DB.ListArticlesFiltered`: `... [WHERE reported = 1] ORDER BY published_date DESC
LIMIT ?`. A negative LIMIT puts no bound on the number of rows. -/
def DB.ListArticlesFiltered (d : DB) (limit : Int) (reportedOnly : Bool) :
    Except String (List Article) :=
  let rows := if reportedOnly then d.filter (fun a => a.Reported) else d
  let sorted := rows.insertionSort newerFirst
  .ok (if limit < 0 then sorted else sorted.take limit.toNat)

/-- `DB.ListArticles`. -/
def DB.ListArticles (d : DB) (limit : Int) : Except String (List Article) :=
  DB.ListArticlesFiltered d limit false

/-- How a command ends: it returns nil, returns an error, or the goroutine panics. -/
inductive Status where
  | ok
  | error (msg : String)
  | panic (msg : String)
  deriving DecidableEq, Repr

/-! ## internal/commands/fetch.go -/

/-- `MAX_DB_CONTENT_LENGTH`. -/
def MAX_DB_CONTENT_LENGTH : Nat := 4096

/-- The fields of `gofeed.Item` that the program reads; `PublishedParsed` is a nullable
pointer. -/
structure Item where
  GUID : GoString
  Title : GoString
  Link : GoString
  Description : GoString
  Content : GoString
  PublishedParsed : Option Int
  deriving DecidableEq, Repr

/-- What `fetchAndSave` takes from outside the repository: `rss.FetchFeed` (gofeed), the
`Sanitize` of bluemonday's strict policy, and the reading of `time.Now()` taken while an
item is processed. -/
structure FetchEnv where
  FetchFeed : GoString → Except String (List Item)
  Sanitize : GoString → GoString
  Now : Item → Int

/-- The store and the counters `existing` and `added` of the loop of `fetchAndSave`. -/
structure FetchState where
  db : DB
  existing : Nat
  added : Nat
  deriving DecidableEq, Repr

/-- The summary line of `fetchAndSave`. -/
structure FetchStats where
  received : Nat
  existing : Nat
  added : Nat
  deriving DecidableEq, Repr

/-- The variable `effectiveGUID` of `fetchAndSave` (fetch.go, lines 48-51). -/
def effectiveGUID (item : Item) : GoString :=
  if item.GUID = [] then item.Link else item.GUID

/-- The `storage.Article` that `fetchAndSave` builds for a new item (fetch.go, lines 63-88);
`Model` and `Reported` keep their zero values. -/
def newArticle (env : FetchEnv) (url : GoString) (item : Item) : Article :=
  let content := if item.Content = [] then item.Description else item.Content
  let content := env.Sanitize content
  let desc := env.Sanitize item.Description
  let pubDate := match item.PublishedParsed with
    | some t => t
    | none => env.Now item
  { GUID := effectiveGUID item
    Title := item.Title
    Link := item.Link
    Description := desc
    Content := TrimString content MAX_DB_CONTENT_LENGTH
    PublishedDate := pubDate
    Score := []
    Analysis := []
    FeedURL := url
    Model := []
    Reported := false }

/-- One iteration of the loop of `fetchAndSave`. -/
def fetchItem (env : FetchEnv) (url : GoString) (st : FetchState) (item : Item) : FetchState :=
  match DB.ArticleExists st.db (effectiveGUID item) with
  | .error _ => st
  | .ok true => { st with existing := st.existing + 1 }
  | .ok false =>
    match DB.SaveArticle st.db (newArticle env url item) with
    | .error _ => st
    | .ok db1 => { st with db := db1, added := st.added + 1 }

/-- `fetchAndSave`: the store afterwards, and the error or the printed counters. -/
def fetchAndSave (env : FetchEnv) (db : DB) (url : GoString) : DB × Except String FetchStats :=
  match env.FetchFeed url with
  | .error e => (db, .error e)
  | .ok items =>
    let st := items.foldl (fetchItem env url) { db := db, existing := 0, added := 0 }
    (st.db, .ok { received := items.length, existing := st.existing, added := st.added })

/-! ## internal/commands/score.go -/

/-- `MAX_AI_CONTENT_LENGTH`. -/
def MAX_AI_CONTENT_LENGTH : Nat := 4096

/-- `defaultPromptTemplate`. -/
def defaultPromptTemplate : GoString :=
  str ("Scott likes projects relating to vintage computers and speech synthesizers. " ++
    "In particular he like the 4004, 8008, 8080, 8085, 8086, z80, and z8000 cpus. " ++
    "He ikes unique display technologies like nixie tubes. " ++
    "He likes raspberry pi and microcontroller projects if there is something unique or retro about them. " ++
    "He likes restoring old or rare computers. Produce a numeric score between 0 and 100 " ++
    "If the article is about Scott Baker or smbaker, give it a score of 100. " ++
    "based on how much scott will like this project, please exactly three bullet points on what he will like.\n\n" ++
    "Title: \x7b\x7b.Title\x7d\x7d\nDescription: \x7b\x7b.Description\x7d\x7d\nContent: \x7b\x7b.Content\x7d\x7d")

/-- The anonymous struct handed to the prompt template. -/
structure PromptData where
  Title : GoString
  Description : GoString
  Content : GoString
  deriving DecidableEq, Repr

/-- `openai.ChatCompletionMessage`, the fields in use. -/
structure ChatCompletionMessage where
  Role : GoString
  Content : GoString
  deriving DecidableEq, Repr

/-- `openai.ChatCompletionRequest`, the fields in use. -/
structure ChatCompletionRequest where
  Model : GoString
  Messages : List ChatCompletionMessage
  deriving DecidableEq, Repr

/-- `openai.ChatCompletionChoice`, the fields in use. -/
structure ChatCompletionChoice where
  Message : ChatCompletionMessage
  deriving DecidableEq, Repr

/-- `openai.ChatCompletionResponse`, the fields in use. -/
structure ChatCompletionResponse where
  Choices : List ChatCompletionChoice
  deriving DecidableEq, Repr

/-- A parsed `text/template`: its `Execute` on the prompt data. -/
abbrev Template := PromptData → Except String GoString

/-- What `scoreArticles` takes from outside the repository: the settings `api_key`, `model`
and `prompt` (viper), `os.ReadFile`, `template.Parse`, and the chat-completion service. The
service may answer the same request differently from call to call, so its answer is given
per candidate article under scoring. -/
structure ScoreEnv where
  api_key : GoString
  model : GoString
  prompt : GoString
  ReadFile : GoString → Except String GoString
  Parse : GoString → Except String Template
  CreateChatCompletion : Article → ChatCompletionRequest → Except String ChatCompletionResponse

/-- `NewAIClient` (client.go): fails when `api_key` is empty. -/
def NewAIClient (env : ScoreEnv) : Except String Unit :=
  if env.api_key = [] then
    .error "API_KEY is not set; please set it in the config, environment, or command line"
  else .ok ()

/-- The prompt template of `scoreArticles` (score.go, lines 76-92): the default, the setting,
or the file named after `@`, then parsed. -/
def promptTemplate (env : ScoreEnv) : Except String Template :=
  let source : Except String GoString :=
    if env.prompt = [] then .ok defaultPromptTemplate
    else match env.prompt with
      | 64 :: filename =>
        match env.ReadFile filename with
        | .error e => .error ("error reading prompt file: " ++ e)
        | .ok content => .ok content
      | _ => .ok env.prompt
  match source with
  | .error e => .error e
  | .ok text =>
    match env.Parse text with
    | .error e => .error ("error parsing prompt template: " ++ e)
    | .ok tmpl => .ok tmpl

/-- The request that `scoreArticles` sends for a rendered prompt. -/
def chatRequest (env : ScoreEnv) (articlePrompt : GoString) : ChatCompletionRequest :=
  { Model := env.model, Messages := [{ Role := str "user", Content := articlePrompt }] }

/-- The loop of `scoreArticles` over the candidates (score.go, lines 96-160). -/
def scoreLoop (env : ScoreEnv) (tmpl : Template) : List Article → DB → DB × Status
  | [], db => (db, .ok)
  | art :: rest, db =>
    let data : PromptData :=
      { Title := art.Title, Description := art.Description,
        Content := TrimString art.Content MAX_AI_CONTENT_LENGTH }
    match tmpl data with
    | .error _ => scoreLoop env tmpl rest db
    | .ok articlePrompt =>
      match env.CreateChatCompletion art (chatRequest env articlePrompt) with
      | .error _ => scoreLoop env tmpl rest db
      | .ok resp =>
        match resp.Choices with
        | [] => (db, .panic "runtime error: index out of range [0] with length 0")
        | choice :: _ =>
          let content := choice.Message.Content
          let score := extractScore content
          match DB.UpdateArticleScore db art.GUID score content env.model with
          | .error _ => scoreLoop env tmpl rest db
          | .ok db1 => scoreLoop env tmpl rest db1

/-- `scoreArticles`: the store afterwards and how the call ended. -/
def scoreArticles (env : ScoreEnv) (db : DB) (refreshPattern : GoString) (_showResponse : Bool) :
    DB × Status :=
  match DB.GetArticlesToScore db refreshPattern with
  | .error e => (db, .error e)
  | .ok articles =>
    if articles.length = 0 then (db, .ok)
    else
      match NewAIClient env with
      | .error e => (db, .error e)
      | .ok _ =>
        match promptTemplate env with
        | .error e => (db, .error e)
        | .ok tmpl => scoreLoop env tmpl articles db

/-! ## internal/commands/report.go -/

/-- `report.Report`. -/
structure Report where
  Title : GoString
  Articles : List Article
  deriving DecidableEq, Repr

/-- What `generateReport` takes from outside its body: the flags of the command, the mail
settings (viper), the clock, the formatting of the title, and from `pkg/report` the HTML
rendering, the file write and the mail transport. -/
structure ReportEnv where
  Now : Int
  reportAge : Int
  reportThreshold : Int
  reportOut : GoString
  reportSendEmail : Bool
  reportAlways : Bool
  email_to : GoString
  email_from : GoString
  email_smarthost : GoString
  email_identity : GoString
  email_username : GoString
  email_password : GoString
  email_subject : GoString
  Sprintf : Int → Int → GoString
  GenerateHTML : Report → Except String GoString
  WriteFile : GoString → GoString → Except String Unit
  Send : List GoString → GoString → GoString → GoString → GoString → GoString → GoString →
    GoString → Except String Unit

/-- Nanoseconds in `time.Hour`. -/
def Hour : Int := 3600000000000

/-- `time.Now().Add(time.Duration(-reportAge) * 24 * time.Hour)`; the duration is a signed
64-bit count of nanoseconds. -/
def since (env : ReportEnv) : Int := env.Now + wrap64 (-env.reportAge * 24 * Hour)

/-- The variable `score` of the filter loop: the `Atoi` of the text, 0 on error. -/
def scoreOrZero (s : GoString) : Int :=
  match Atoi s with
  | .ok n => n
  | .error _ => 0

/-- The filter loop of `generateReport` (report.go, lines 65-75). -/
def validArticles (reportThreshold : Int) (articles : List Article) : List Article :=
  articles.foldl (fun acc art =>
    if scoreOrZero art.Score ≥ reportThreshold then acc ++ [art] else acc) []

/-- `Report.GenerateFile` (pkg/report). -/
def GenerateFile (env : ReportEnv) (r : Report) (filename : GoString) : Except String Unit :=
  match env.GenerateHTML r with
  | .error e => .error e
  | .ok html =>
    match env.WriteFile filename html with
    | .error e => .error ("error writing report file: " ++ e)
    | .ok _ => .ok ()

/-- `Report.GenerateEmail` (pkg/report). -/
def GenerateEmail (env : ReportEnv) (r : Report)
    (toAddr sender smarthost identity username password : GoString) : Except String Unit :=
  if smarthost = [] ∨ toAddr = [] ∨ sender = [] then
    .error "email configuration missing (smarthost, to, from)"
  else
    match env.GenerateHTML r with
    | .error e => .error ("error generating html for email: " ++ e)
    | .ok html =>
      match env.Send [toAddr] sender r.Title html smarthost identity username password with
      | .error e => .error ("failed to send email: " ++ e)
      | .ok _ => .ok ()

/-- The articles that `generateReport` reads from the store. -/
def reportCandidates (env : ReportEnv) (db : DB) : Except String (List Article) :=
  if env.reportAlways then DB.GetArticlesAfter db (since env)
  else DB.GetUnreportedArticlesAfter db (since env)

/-- `generateReport`: the store afterwards and how the call ended. -/
def generateReport (env : ReportEnv) (db : DB) : DB × Status :=
  match reportCandidates env db with
  | .error e => (db, .error ("error fetching articles: " ++ e))
  | .ok articles =>
    if articles.length = 0 then (db, .ok)
    else
      let valid := validArticles env.reportThreshold articles
      if valid.length = 0 then (db, .ok)
      else if !env.reportSendEmail && env.reportOut == [] then
        (db, .error "error: must specify --out or --send-email")
      else
        let rep : Report := { Title := env.Sprintf env.reportAge env.reportThreshold,
                              Articles := valid }
        match (if env.reportOut ≠ [] then GenerateFile env rep env.reportOut else .ok ()) with
        | .error e => (db, .error ("error writing report file: " ++ e))
        | .ok _ =>
          let rep : Report :=
            if env.reportSendEmail ∧ env.email_subject ≠ [] then
              { rep with Title := env.email_subject }
            else rep
          match (if env.reportSendEmail then
              GenerateEmail env rep env.email_to env.email_from env.email_smarthost
                env.email_identity env.email_username env.email_password
            else .ok ()) with
          | .error e => (db, .error ("error sending email: " ++ e))
          | .ok _ =>
            match DB.MarkArticlesReported db (valid.map (fun art => art.GUID)) with
            | .error e => (db, .error ("error marking articles as reported: " ++ e))
            | .ok db1 => (db1, .ok)

/-- The articles a run of `generateReport` selects: the variable `validArticles`. -/
def selected (env : ReportEnv) (db : DB) : List Article :=
  match reportCandidates env db with
  | .error _ => []
  | .ok articles => validArticles env.reportThreshold articles

/-! ## internal/commands/run.go -/

/-- The flags of the `run` command that `runScraper` reads, and the setting `feed_url`. -/
structure RunFlags where
  runInterval : Int
  noScore : Bool
  noFetch : Bool
  noReport : Bool
  runServe : Bool
  feed_url : GoString

/-- What the three phases of one cycle take from outside the repository. -/
structure CycleEnv where
  fetch : FetchEnv
  score : ScoreEnv
  report : ReportEnv

/-- What the main goroutine of `runScraper` does, in order: it starts the web server, starts
a cycle, calls a phase, ends the process through `log.Fatalf` or a panic, sleeps, blocks in
`select {}`, or leaves the loop. -/
inductive Event where
  | serve
  | cycle
  | fetch
  | score
  | report
  | fatal (msg : String)
  | panic (msg : String)
  | sleep (d : Int)
  | block
  | finished
  deriving DecidableEq, Repr

/-- The store and the events so far. -/
structure RunState where
  db : DB
  trace : List Event
  deriving DecidableEq, Repr

/-- How far `runScraper` has come: it has returned, the process has exited (fatal error or
panic), it blocks for ever in `select {}`, or it is still in the loop after the cycles
watched. -/
inductive RunEnd where
  | finished
  | exited
  | blocked
  | running
  deriving DecidableEq, Repr

/-- The fetch phase of a cycle (run.go, lines 62-66); an error ends the process. -/
def fetchPhase (flags : RunFlags) (env : CycleEnv) (st : RunState) : Except RunState RunState :=
  if !flags.noFetch then
    match fetchAndSave env.fetch st.db flags.feed_url with
    | (db1, .error e) =>
      .error { db := db1, trace := st.trace ++ [.fetch, .fatal ("Error fetching feed: " ++ e)] }
    | (db1, .ok _) => .ok { db := db1, trace := st.trace ++ [.fetch] }
  else .ok st

/-- The score phase of a cycle (run.go, lines 68-72). -/
def scorePhase (flags : RunFlags) (env : CycleEnv) (st : RunState) : Except RunState RunState :=
  if !flags.noScore then
    match scoreArticles env.score st.db [] false with
    | (db1, .error e) =>
      .error { db := db1,
               trace := st.trace ++ [.score, .fatal ("Error scoring articles: " ++ e)] }
    | (db1, .panic m) => .error { db := db1, trace := st.trace ++ [.score, .panic m] }
    | (db1, .ok) => .ok { db := db1, trace := st.trace ++ [.score] }
  else .ok st

/-- The report phase of a cycle (run.go, lines 74-78). -/
def reportPhase (flags : RunFlags) (env : CycleEnv) (st : RunState) :
    Except RunState RunState :=
  if !flags.noReport then
    match generateReport env.report st.db with
    | (db1, .error e) =>
      .error { db := db1,
               trace := st.trace ++ [.report, .fatal ("Error running report: " ++ e)] }
    | (db1, .panic m) => .error { db := db1, trace := st.trace ++ [.report, .panic m] }
    | (db1, .ok) => .ok { db := db1, trace := st.trace ++ [.report] }
  else .ok st

/-- One pass through the body of the loop of `runScraper`, up to the test of the interval:
`error` when the process has ended in it. -/
def runCycle (flags : RunFlags) (env : CycleEnv) (st : RunState) : Except RunState RunState :=
  match fetchPhase flags env { st with trace := st.trace ++ [.cycle] } with
  | .error s => .error s
  | .ok s1 =>
    match scorePhase flags env s1 with
    | .error s => .error s
    | .ok s2 => reportPhase flags env s2

/-- The loop of `runScraper`, watched for `fuel` cycles; cycle `n` meets the world `world n`. -/
def runLoop (flags : RunFlags) (world : Nat → CycleEnv) : Nat → Nat → RunState → RunState × RunEnd
  | 0, _, st => (st, .running)
  | fuel + 1, n, st =>
    match runCycle flags (world n) st with
    | .error st1 => (st1, .exited)
    | .ok st1 =>
      if flags.runInterval = 0 then
        if flags.runServe then ({ st1 with trace := st1.trace ++ [.block] }, .blocked)
        else ({ st1 with trace := st1.trace ++ [.finished] }, .finished)
      else
        runLoop flags world fuel (n + 1)
          { st1 with trace := st1.trace ++ [.sleep flags.runInterval] }

/-- `runScraper`, main goroutine: the web server, when requested, is started before the
loop and runs beside it. -/
def runScraper (flags : RunFlags) (world : Nat → CycleEnv) (fuel : Nat) (db : DB) :
    RunState × RunEnd :=
  runLoop flags world fuel 0 { db := db, trace := if flags.runServe then [.serve] else [] }

/-! ## Reading the specification of score extraction -/

/-- Spelling `kw` is the literal `pat` up to case, in the sense of the `(?i)` flag. -/
def FoldSpelling : GoString → GoString → Prop
  | [], kw => kw = []
  | p :: ps, kw => ∃ v ∈ foldVariants p, ∃ rest, kw = v ++ rest ∧ FoldSpelling ps rest

/-- Spelling `kw` is `score` or `rating` up to case. -/
def IsLabel (kw : GoString) : Prop :=
  FoldSpelling (str "score") kw ∨ FoldSpelling (str "rating") kw

/-- Text `t` has, right after the prefix `pre`, a label, a colon, optional white space and
a decimal digit. -/
def LabelledAt (t pre : GoString) : Prop :=
  ∃ kw ws d rest, t = pre ++ kw ++ 58 :: (ws ++ d :: rest) ∧ IsLabel kw ∧
    (∀ b ∈ ws, isSpace b = true) ∧ isDigit d = true

/-- Digit run `ds` cannot be extended to the right inside `ds ++ rest`. -/
def EndsRun (rest : GoString) : Prop := ∀ b ∈ rest.head?, isDigit b = false

/-- Text `s` is the decimal numeral of `v`: an optional sign and one or more digits. -/
def Denotes (s : GoString) (v : Int) : Prop :=
  ∃ body : GoString, body ≠ [] ∧ (∀ b ∈ body, isDigit b = true) ∧
    (((s = body ∨ s = 43 :: body) ∧ v = (digitsValue body : Int)) ∨
      (s = 45 :: body ∧ v = -(digitsValue body : Int)))

/-- Value `v` fits Go's `int`. -/
def InIntRange (v : Int) : Prop := -(2 : Int) ^ 63 ≤ v ∧ v ≤ (2 : Int) ^ 63 - 1

/-- The range check at the end of `Atoi`, on its own. -/
def rangeCheck (v : Int) : Except String Int :=
  if v < -(2 : Int) ^ (intSize - 1) ∨ (2 : Int) ^ (intSize - 1) - 1 < v then
    .error "value out of range"
  else .ok v

/-- The guids of the rows of a store, in row order. -/
def guids (d : DB) : List GoString := d.map (fun a => a.GUID)

/-! ## Reading the specification of title patterns -/

mutual
/-- Shell-style glob as the specification words it: `?` matches exactly one character, `*`
any sequence of characters (`globStar`), every other byte only itself. -/
def globMatch : GoString → GoString → Bool
  | [], t => t.isEmpty
  | p :: ps, t =>
    if p = 42 then globStar ps t
    else if p = 63 then
      match skipUtf8 t with
      | some r => globMatch ps r
      | none => false
    else
      match t with
      | [] => false
      | c :: cs => p == c && globMatch ps cs
/-- The glob behind a `*`: a `*` more adds nothing, a `?` stands for exactly one character
in front of the sequence that the `*` matches, the end of the pattern matches any rest, and
any other byte is looked for in the text, the glob going on behind an occurrence. -/
def globStar : GoString → GoString → Bool
  | [], _ => true
  | p :: ps, t =>
    if p = 42 then globStar ps t
    else if p = 63 then
      match skipUtf8 t with
      | some r => globStar ps r
      | none => false
    else
      t.tails.any (fun u =>
        match u with
        | [] => false
        | c :: cs => p == c && globMatch ps cs)
end

mutual
/-- The same glob with ASCII letters compared without regard to case. -/
def globMatchFold : GoString → GoString → Bool
  | [], t => t.isEmpty
  | p :: ps, t =>
    if p = 42 then globStarFold ps t
    else if p = 63 then
      match skipUtf8 t with
      | some r => globMatchFold ps r
      | none => false
    else
      match t with
      | [] => false
      | c :: cs => asciiLower p == asciiLower c && globMatchFold ps cs
/-- The glob behind a `*`, with ASCII letters compared without regard to case. -/
def globStarFold : GoString → GoString → Bool
  | [], _ => true
  | p :: ps, t =>
    if p = 42 then globStarFold ps t
    else if p = 63 then
      match skipUtf8 t with
      | some r => globStarFold ps r
      | none => false
    else
      t.tails.any (fun u =>
        match u with
        | [] => false
        | c :: cs => asciiLower p == asciiLower c && globMatchFold ps cs)
end

/-! ## Reading the specification of scoring -/

/-- The WHERE clause of `GetArticlesToScore` on a row. -/
def isCandidate (refreshPattern : GoString) (a : Article) : Bool :=
  if refreshPattern ≠ [] then unscored a || sqlLike (globToLike refreshPattern) a.Title
  else unscored a

/-- The response the service gives for a candidate, when both the rendering of its prompt
and the completion call succeed. -/
def callResult (env : ScoreEnv) (tmpl : Template) (art : Article) :
    Option ChatCompletionResponse :=
  match tmpl { Title := art.Title, Description := art.Description,
               Content := TrimString art.Content MAX_AI_CONTENT_LENGTH } with
  | .error _ => none
  | .ok articlePrompt =>
    match env.CreateChatCompletion art (chatRequest env articlePrompt) with
    | .error _ => none
    | .ok resp => some resp

/-- Rendering or the completion call fails for the candidate. -/
def fails (env : ScoreEnv) (tmpl : Template) (art : Article) : Bool :=
  (callResult env tmpl art).isNone

/-- The raw text of a successful completion: the content of the first choice. -/
def responseText (env : ScoreEnv) (tmpl : Template) (art : Article) : Option GoString :=
  match callResult env tmpl art with
  | some resp =>
    match resp.Choices with
    | choice :: _ => some choice.Message.Content
    | [] => none
  | none => none

/-- Every response that comes back without error for a candidate carries a choice. -/
def WellFormed (env : ScoreEnv) (tmpl : Template) (cands : List Article) : Prop :=
  ∀ art ∈ cands, ∀ resp, callResult env tmpl art = some resp → resp.Choices ≠ []

/-- A row with the triple of raw text `r` under model `m` written to it. -/
def withScore (m r : GoString) (a : Article) : Article :=
  { a with Score := extractScore r, Analysis := r, Model := m }

/-- What a run of scoring is to do to a row: write the triple when the row is a candidate
whose completion succeeded, leave it alone otherwise. -/
def scoredRow (env : ScoreEnv) (tmpl : Template) (refreshPattern : GoString) (a : Article) :
    Article :=
  if isCandidate refreshPattern a then
    match responseText env tmpl (scanTen a) with
    | some r => withScore env.model r a
    | none => a
  else a

/-- The effect of one candidate on one row inside the loop. -/
def rowStep (env : ScoreEnv) (tmpl : Template) (a : Article) (art : Article) : Article :=
  match responseText env tmpl art with
  | some r => if a.GUID = art.GUID then withScore env.model r a else a
  | none => a

/-! ## Reading the specification of reporting -/

/-- A row after `reported` has been set for the guids `gs`. -/
def markRow (gs : List GoString) (a : Article) : Article :=
  if a.GUID ∈ gs then { a with Reported := true } else a

/-- The report that `generateReport` hands to the file step. -/
def fileReport (env : ReportEnv) (db : DB) : Report :=
  { Title := env.Sprintf env.reportAge env.reportThreshold, Articles := selected env db }

/-- The report that `generateReport` hands to the mail step: its title is the setting
`email_subject` when that is not empty. -/
def mailReport (env : ReportEnv) (db : DB) : Report :=
  if env.email_subject ≠ [] then { fileReport env db with Title := env.email_subject }
  else fileReport env db

/-- The file step of `generateReport` succeeds or is skipped. -/
def FileStepPasses (env : ReportEnv) (db : DB) : Prop :=
  env.reportOut = [] ∨ GenerateFile env (fileReport env db) env.reportOut = .ok ()

/-- Text `t` contains the text `sub`. -/
def containsSub (sub t : GoString) : Bool :=
  t.tails.any (fun u => sub.isPrefixOf u)

/-- Text `t` contains the text `sub` up to the case of ASCII letters. -/
def containsFold (sub t : GoString) : Bool :=
  t.tails.any (fun u => (sub.map asciiLower).isPrefixOf (u.map asciiLower))

/-- A literal without the wildcard bytes of globs (`*`, `?`) and of LIKE (`%`, `_`). -/
def PlainLiteral (lit : GoString) : Prop :=
  ∀ b ∈ lit, b ≠ 42 ∧ b ≠ 63 ∧ b ≠ 37 ∧ b ≠ 95

/-- A row after its `reported` flag has been cleared when its title contains `lit` up to
ASCII case. -/
def resetRow (lit : GoString) (a : Article) : Article :=
  if containsFold lit a.Title then { a with Reported := false } else a

/-- The shape of a score: empty, the sentinel `N/A`, or a non-empty run of decimal digits. -/
def ScoreShape (s : GoString) : Prop :=
  s = [] ∨ s = str "N/A" ∨ (s ≠ [] ∧ ∀ b ∈ s, isDigit b = true)

/-- The stores that arise from the empty store by `fetchAndSave`, `scoreArticles` and
`ClearScores`, with any feed, clock, sanitizer, prompt template and model responses, and
however a scoring run ends. -/
inductive Reachable : DB → Prop where
  | empty : Reachable []
  | fetch (env : FetchEnv) (url : GoString) {db : DB} :
      Reachable db → Reachable (fetchAndSave env db url).1
  | score (env : ScoreEnv) (refreshPattern : GoString) (showResponse : Bool) {db : DB} :
      Reachable db → Reachable (scoreArticles env db refreshPattern showResponse).1
  | clear (ids : List GoString) {db d1 : DB} :
      Reachable db → DB.ClearScores db ids = .ok d1 → Reachable d1

/-- The guid and the reported flag of every row, in row order. -/
def flags (d : DB) : List (GoString × Bool) := d.map (fun a => (a.GUID, a.Reported))

/-- Row `b` is row `a` with a reported flag that has not gone from true to false. -/
def KeepsReported (a b : Article) : Prop :=
  b.GUID = a.GUID ∧ (a.Reported = true → b.Reported = true)

/-- Row `b` is row `a` with a reported flag that has not gone from false to true. -/
def KeepsUnreported (a b : Article) : Prop :=
  b.GUID = a.GUID ∧ (a.Reported = false → b.Reported = false)

/-- The sanitized source text of an item: its content, or its description when the content
is empty. -/
def sourceText (env : FetchEnv) (item : Item) : GoString :=
  env.Sanitize (if item.Content = [] then item.Description else item.Content)

/-- Number of characters of a UTF-8 text: the bytes that are not continuation bytes. -/
def runeCount (s : GoString) : Nat :=
  (s.filter (fun b => !(decide (0x80 ≤ b.toNat) && decide (b.toNat ≤ 0xBF)))).length

/-! ## Reading the specification of the scheduler -/

/-- The phases that the flags leave switched on, in the order of a cycle. -/
def enabled (flags : RunFlags) : List Event :=
  (if !flags.noFetch then [Event.fetch] else []) ++
    ((if !flags.noScore then [Event.score] else []) ++
      (if !flags.noReport then [Event.report] else []))

/-- The event ends the process. -/
def IsExit (e : Event) : Prop := (∃ msg, e = .fatal msg) ∨ (∃ msg, e = .panic msg)

/-- Number of cycles started in a trace. -/
def cyclesStarted (trace : List Event) : Nat := trace.count .cycle

/-- The events of `n` cycles in which every phase returns nil, each followed by the sleep. -/
def cleanTrace (flags : RunFlags) : Nat → List Event
  | 0 => []
  | n + 1 => Event.cycle :: (enabled flags ++ [Event.sleep flags.runInterval]) ++
      cleanTrace flags n

/-! ## Sample data -/

/-- A feed of three items: one without guid, and two that share a guid. -/
def demoItems : List Item :=
  [ { GUID := [], Title := str "Z80 Project", Link := str "http://x/1",
      Description := str "a build", Content := [], PublishedParsed := none },
    { GUID := str "g2", Title := str "Nixie clock", Link := str "http://x/2",
      Description := str "tubes", Content := str "long text", PublishedParsed := some 5 },
    { GUID := str "g2", Title := str "Nixie clock, again", Link := str "http://x/3",
      Description := str "tubes", Content := str "other text", PublishedParsed := some 6 } ]

/-- An environment that serves `demoItems` for every URL. -/
def demoFetchEnv : FetchEnv :=
  { FetchFeed := fun _ => .ok demoItems, Sanitize := fun s => s, Now := fun _ => 100 }

/-- A scored row whose title starts with a capital letter. -/
def retroRow : Article :=
  { GUID := str "g1", Title := str "Retro computer", Link := str "http://x/1",
    Description := [], Content := [], PublishedDate := 1, Score := str "50",
    Analysis := str "Score: 50", FeedURL := str "feed", Model := str "m", Reported := false }

/-- Two rows fresh from a fetch. -/
def demoUnscored : DB :=
  [ { GUID := str "a", Title := str "Z80 Project", Link := str "http://x/1",
      Description := [], Content := [], PublishedDate := 10, Score := [], Analysis := [],
      FeedURL := str "feed", Model := [], Reported := false },
    { GUID := str "b", Title := str "Nixie clock", Link := str "http://x/2",
      Description := [], Content := [], PublishedDate := 20, Score := [], Analysis := [],
      FeedURL := str "feed", Model := [], Reported := false } ]

/-- A service whose answer for article `a` comes back without error and without choices,
and whose answer for every other article is `Score: 75`. -/
def emptyChoicesEnv : ScoreEnv :=
  { api_key := str "key", model := str "m", prompt := [],
    ReadFile := fun _ => .error "no such file",
    Parse := fun _ => .ok (fun data => .ok data.Title),
    CreateChatCompletion := fun art _ =>
      if art.GUID = str "a" then .ok { Choices := [] }
      else .ok { Choices := [{ Message := { Role := str "assistant",
                                            Content := str "Score: 75" } }] } }

/-- A service that fails for article `a` and answers `Score: 75` for every other one. -/
def failingEnv : ScoreEnv :=
  { api_key := str "key", model := str "m", prompt := [],
    ReadFile := fun _ => .error "no such file",
    Parse := fun _ => .ok (fun data => .ok data.Title),
    CreateChatCompletion := fun art _ =>
      if art.GUID = str "a" then .error "timeout"
      else .ok { Choices := [{ Message := { Role := str "assistant",
                                            Content := str "Score: 75" } }] } }

/-- The template that `failingEnv` and `emptyChoicesEnv` parse to. -/
def titleTemplate : Template := fun data => .ok data.Title

/-- A report run at instant 8 days, over 7 days with threshold 50, written to a file, with
no mail and `always` off; rendering and writing succeed. -/
def demoReportEnv : ReportEnv :=
  { Now := 8 * 24 * Hour, reportAge := 7, reportThreshold := 50, reportOut := str "report.html",
    reportSendEmail := false, reportAlways := false,
    email_to := [], email_from := [], email_smarthost := [], email_identity := [],
    email_username := [], email_password := [], email_subject := [],
    Sprintf := fun _ _ => str "AI RSS Report",
    GenerateHTML := fun _ => .ok (str "<html>"),
    WriteFile := fun _ _ => .ok (),
    Send := fun _ _ _ _ _ _ _ _ => .ok () }

/-- Three rows published on day 2: one scored 75, one scored 20, one unscored. -/
def demoScored : DB :=
  [ { GUID := str "a", Title := str "Z80 Project", Link := str "http://x/1",
      Description := [], Content := [], PublishedDate := 2 * 24 * Hour, Score := str "75",
      Analysis := str "Score: 75", FeedURL := str "feed", Model := str "m",
      Reported := false },
    { GUID := str "b", Title := str "Nixie clock", Link := str "http://x/2",
      Description := [], Content := [], PublishedDate := 2 * 24 * Hour + 1, Score := str "20",
      Analysis := str "Score: 20", FeedURL := str "feed", Model := str "m",
      Reported := false },
    { GUID := str "c", Title := str "Unscored", Link := str "http://x/3",
      Description := [], Content := [], PublishedDate := 2 * 24 * Hour + 2, Score := [],
      Analysis := [], FeedURL := str "feed", Model := [], Reported := false } ]

/-- The sample report run with mail requested and a mail transport that fails. -/
def mailFailsEnv : ReportEnv :=
  { demoReportEnv with
    reportSendEmail := true, email_to := str "to@x", email_from := str "from@x",
    email_smarthost := str "smtp:25",
    Send := fun _ _ _ _ _ _ _ _ => .error "connection refused" }

/-- The sample report run with neither an output file nor mail. -/
def noDestinationEnv : ReportEnv := { demoReportEnv with reportOut := [] }

/-- An unreported row titled `Foo bar`, a reported row titled `food court` and a reported
row titled `Nixie clock`. -/
def fooStore : DB :=
  [ { GUID := str "f1", Title := str "Foo bar", Link := [], Description := [], Content := [],
      PublishedDate := 3, Score := str "60", Analysis := [], FeedURL := [], Model := [],
      Reported := false },
    { GUID := str "f2", Title := str "food court", Link := [], Description := [], Content := [],
      PublishedDate := 2, Score := str "70", Analysis := [], FeedURL := [], Model := [],
      Reported := true },
    { GUID := str "f3", Title := str "Nixie clock", Link := [], Description := [],
      Content := [], PublishedDate := 1, Score := str "80", Analysis := [], FeedURL := [],
      Model := [], Reported := true } ]

/-- The first row of `demoScored`. -/
def scoredRowA : Article :=
  { GUID := str "a", Title := str "Z80 Project", Link := str "http://x/1",
    Description := [], Content := [], PublishedDate := 2 * 24 * Hour, Score := str "75",
    Analysis := str "Score: 75", FeedURL := str "feed", Model := str "m",
    Reported := false }

/-- The second row of the sample feed after a fetch from URL `u` and a scoring run that
answered `Score: 75` under model `m`. -/
def fetchedScoredRow : Article :=
  { GUID := str "g2", Title := str "Nixie clock", Link := str "http://x/2",
    Description := str "tubes", Content := str "long text", PublishedDate := 5,
    Score := str "75", Analysis := str "Score: 75", FeedURL := str "u", Model := str "m",
    Reported := false }

/-- A service that answers every request with a score of twenty digits. -/
def hugeScoreEnv : ScoreEnv :=
  { api_key := str "key", model := str "m", prompt := [],
    ReadFile := fun _ => .error "no such file",
    Parse := fun _ => .ok (fun data => .ok data.Title),
    CreateChatCompletion := fun _ _ =>
      .ok { Choices := [{ Message := { Role := str "assistant",
                                       Content := str "Score: 10000000000000000000" } }] } }

/-- The sample feed fetched into the empty store and scored by `hugeScoreEnv`. -/
def hugeStore : DB :=
  (scoreArticles hugeScoreEnv (fetchAndSave demoFetchEnv [] (str "u")).1 [] false).1

/-- A feed source that cannot be reached. -/
def downFetchEnv : FetchEnv :=
  { FetchFeed := fun _ => .error "no such host", Sanitize := fun s => s, Now := fun _ => 100 }

/-- The flags of `run` at their defaults: every phase on, interval 0, no web server. -/
def defaultRunFlags : RunFlags :=
  { runInterval := 0, noScore := false, noFetch := false, noReport := false, runServe := false,
    feed_url := str "u" }

/-- A world in which the feed source is down in every cycle. -/
def downWorld : Nat → CycleEnv :=
  fun _ => { fetch := downFetchEnv, score := failingEnv, report := demoReportEnv }

/-- A world in which the sample feed is served in every cycle. -/
def demoWorld : Nat → CycleEnv :=
  fun _ => { fetch := demoFetchEnv, score := failingEnv, report := demoReportEnv }

/-- Flags for fetching the feed every second, with scoring and reporting switched off. -/
def fetchOnlyFlags : RunFlags :=
  { runInterval := 1000000000, noScore := true, noFetch := false, noReport := true,
    runServe := false, feed_url := str "u" }

/-- A scored row whose title is the single character `€`, three bytes long. -/
def euroRow : Article :=
  { GUID := str "g9", Title := str "€", Link := str "http://x/9", Description := [],
    Content := [], PublishedDate := 1, Score := str "50", Analysis := str "Score: 50",
    FeedURL := str "feed", Model := str "m", Reported := false }

/-- A store of one scored and reported row whose guid is `g2`. -/
def demoStore : DB :=
  [ { GUID := str "g2", Title := str "Old title", Link := str "http://old", Description := [],
      Content := [], PublishedDate := 1, Score := str "80", Analysis := str "Score: 80",
      FeedURL := str "feed", Model := str "m", Reported := true } ]

/-! ## Lemmas on the regular expressions -/

theorem stripPrefix_eq_some (v u r : GoString) : stripPrefix v u = some r ↔ u = v ++ r := by
  induction v generalizing u with
  | nil => simp [stripPrefix, eq_comm]
  | cons p ps ih =>
    cases u with
    | nil => simp [stripPrefix]
    | cons c t =>
      by_cases h : p = c
      · subst h; simp [stripPrefix, ih]
      · simp [stripPrefix, h]; intro h2; exact absurd h2.symm h

theorem takeWhile_run (p : UInt8 → Bool) (ds rest : GoString) (hd : ∀ b ∈ ds, p b = true)
    (hr : ∀ b ∈ rest.head?, p b = false) : (ds ++ rest).takeWhile p = ds := by
  induction ds with
  | nil =>
    cases rest with
    | nil => rfl
    | cons c cs => simp [List.takeWhile, hr c (by simp)]
  | cons d ds ih =>
    simp [List.takeWhile, hd d (by simp)]
    exact ih (fun b hb => hd b (by simp [hb]))

theorem dropWhile_run (p : UInt8 → Bool) (ws rest : GoString) (hw : ∀ b ∈ ws, p b = true)
    (hr : ∀ b ∈ rest.head?, p b = false) : (ws ++ rest).dropWhile p = rest := by
  induction ws with
  | nil =>
    cases rest with
    | nil => rfl
    | cons c cs => simp [List.dropWhile, hr c (by simp)]
  | cons d ds ih =>
    simp [List.dropWhile, hw d (by simp)]
    exact ih (fun b hb => hw b (by simp [hb]))

theorem isDigit_not_isSpace (b : UInt8) (h : isDigit b = true) : isSpace b = false := by
  simp [isDigit, isSpace] at *; omega

theorem foldVariants_find (p : UInt8) (v r : GoString) (hv : v ∈ foldVariants p) :
    (foldVariants p).findSome? (fun w => stripPrefix w (v ++ r)) = some r := by
  unfold foldVariants at hv ⊢
  split_ifs at hv ⊢
  · simp at hv
    rcases hv with rfl | rfl | rfl <;> simp [List.findSome?, stripPrefix]
  · simp at hv
    rcases hv with rfl | rfl | rfl <;> simp [List.findSome?, stripPrefix]
  · simp at hv
    rcases hv with rfl | rfl
    · simp [List.findSome?, stripPrefix]
    · by_cases h : p = UInt8.ofNat (p.toNat - 32)
      · rw [← h]; simp [List.findSome?, stripPrefix]
      · simp [List.findSome?, stripPrefix, h]
  · simp at hv
    subst hv
    simp [List.findSome?, stripPrefix]

theorem matchFold_complete (pat kw r : GoString) (h : FoldSpelling pat kw) :
    matchFold pat (kw ++ r) = some r := by
  induction pat generalizing kw with
  | nil => simp [FoldSpelling] at h; subst h; simp [matchFold]
  | cons p ps ih =>
    obtain ⟨v, hv, rest, rfl, hrest⟩ := h
    simp only [matchFold, List.append_assoc, foldVariants_find p v (rest ++ r) hv]
    exact ih rest hrest

theorem matchFold_sound (pat u r : GoString) (h : matchFold pat u = some r) :
    ∃ kw, FoldSpelling pat kw ∧ u = kw ++ r := by
  induction pat generalizing u with
  | nil => simp [matchFold] at h; exact ⟨[], rfl, by simp [h]⟩
  | cons p ps ih =>
    simp only [matchFold] at h
    split at h
    · rename_i r1 hf
      obtain ⟨v, hv, hs⟩ := List.exists_of_findSome?_eq_some hf
      obtain ⟨kw, hkw, rfl⟩ := ih r1 h
      have hu := (stripPrefix_eq_some v u _).1 hs
      exact ⟨v ++ kw, ⟨v, hv, kw, rfl, hkw⟩, by simp [hu]⟩
    · cases h

theorem str_score : str "score" = [115, 99, 111, 114, 101] := by decide

theorem str_rating : str "rating" = [114, 97, 116, 105, 110, 103] := by decide

theorem matchFold_score_of_rating (kw r : GoString) (h : FoldSpelling (str "rating") kw) :
    matchFold (str "score") (kw ++ r) = none := by
  cases hm : matchFold (str "score") (kw ++ r) with
  | none => rfl
  | some r1 =>
    exfalso
    obtain ⟨kw1, h1, he⟩ := matchFold_sound _ _ _ hm
    rw [str_score] at h1
    rw [str_rating] at h
    obtain ⟨v, hv, rest, rfl, -⟩ := h
    obtain ⟨v1, hv1, rest1, rfl, -⟩ := h1
    have e1 : foldVariants 114 = [[114], [82]] := by decide
    have e2 : foldVariants 115 = [[115], [83], [0xC5, 0xBF]] := by decide
    rw [e1] at hv
    rw [e2] at hv1
    simp only [List.mem_cons, List.mem_singleton, List.not_mem_nil, or_false] at hv hv1
    rcases hv with rfl | rfl <;> rcases hv1 with rfl | rfl | rfl <;> simp at he

theorem scoreRegexAt_complete (kw ws ds rest : GoString) (hk : IsLabel kw)
    (hw : ∀ b ∈ ws, isSpace b = true) (hne : ds ≠ []) (hd : ∀ b ∈ ds, isDigit b = true)
    (hr : EndsRun rest) : scoreRegexAt (kw ++ 58 :: (ws ++ ds ++ rest)) = some ds := by
  have hm : (matchFold (str "score") (kw ++ 58 :: (ws ++ ds ++ rest))).orElse
      (fun _ => matchFold (str "rating") (kw ++ 58 :: (ws ++ ds ++ rest))) =
      some (58 :: (ws ++ ds ++ rest)) := by
    rcases hk with hk | hk
    · rw [matchFold_complete _ _ _ hk]; rfl
    · rw [matchFold_score_of_rating _ _ hk, matchFold_complete _ _ _ hk]; rfl
  have hdrop : (ws ++ ds ++ rest).dropWhile isSpace = ds ++ rest := by
    rw [List.append_assoc]
    apply dropWhile_run _ _ _ hw
    cases ds with
    | nil => exact absurd rfl hne
    | cons d ds1 =>
      intro b hb
      simp at hb
      subst hb
      exact isDigit_not_isSpace _ (hd _ (by simp))
  unfold scoreRegexAt
  rw [hm]
  simp only [hdrop, takeWhile_run isDigit ds rest hd hr]
  cases ds with
  | nil => exact absurd rfl hne
  | cons d ds1 => simp

theorem scoreRegexAt_sound (u ds : GoString) (h : scoreRegexAt u = some ds) :
    LabelledAt u [] := by
  unfold scoreRegexAt at h
  split at h
  · rename_i r hm
    have hlab : ∃ kw, IsLabel kw ∧ u = kw ++ 58 :: r := by
      cases h1 : matchFold (str "score") u with
      | some r1 =>
        rw [h1] at hm
        simp [Option.orElse] at hm
        subst hm
        obtain ⟨kw, hk, he⟩ := matchFold_sound _ _ _ h1
        exact ⟨kw, Or.inl hk, he⟩
      | none =>
        rw [h1] at hm
        simp [Option.orElse] at hm
        obtain ⟨kw, hk, he⟩ := matchFold_sound _ _ _ hm
        exact ⟨kw, Or.inr hk, he⟩
    obtain ⟨kw, hk, he⟩ := hlab
    simp only at h
    split at h
    · cases h
    · rename_i hne
      have hsplit := List.takeWhile_append_dropWhile isSpace r
      cases hdw : r.dropWhile isSpace with
      | nil => rw [hdw] at hne; simp at hne
      | cons d rest =>
        rw [hdw] at hne hsplit
        have hdig : isDigit d = true := by
          by_contra hc
          simp [List.takeWhile, hc] at hne
        refine ⟨kw, r.takeWhile isSpace, d, rest, ?_, hk, ?_, hdig⟩
        · rw [hsplit]; simpa using he
        · intro b hb; exact List.mem_takeWhile_imp hb
  · cases h

theorem labelledAt_regex (t pre : GoString) (h : LabelledAt t pre) :
    ∃ u d, t = pre ++ u ∧ scoreRegexAt u = some d := by
  obtain ⟨kw, ws, d, rest, ht, hk, hw, hd⟩ := h
  refine ⟨kw ++ 58 :: (ws ++ (d :: rest.takeWhile isDigit) ++ rest.dropWhile isDigit),
    d :: rest.takeWhile isDigit, ?_, ?_⟩
  · rw [ht]; simp [List.takeWhile_append_dropWhile]
  · apply scoreRegexAt_complete _ _ _ _ hk hw (by simp)
    · intro b hb
      rcases List.mem_cons.1 hb with rfl | hb
      · exact hd
      · exact List.mem_takeWhile_imp hb
    · intro b hb
      cases hr : rest.dropWhile isDigit with
      | nil => rw [hr] at hb; simp at hb
      | cons c cs =>
        rw [hr] at hb
        simp at hb
        subst hb
        have := List.head_dropWhile_not isDigit rest (by rw [hr]; simp)
        simpa [hr] using this

theorem labelledAt_cons (c : UInt8) (t pre : GoString) (h : LabelledAt t pre) :
    LabelledAt (c :: t) (c :: pre) := by
  obtain ⟨kw, ws, d, rest, ht, hk, hw, hd⟩ := h
  exact ⟨kw, ws, d, rest, by rw [ht]; simp, hk, hw, hd⟩

theorem scoreRegexAt_nil : scoreRegexAt [] = none := by decide

theorem scoreRegexFind_leftmost (pre u ds : GoString) (h : scoreRegexAt u = some ds)
    (hl : ∀ pre1, LabelledAt (pre ++ u) pre1 → pre.length ≤ pre1.length) :
    scoreRegexFind (pre ++ u) = some ds := by
  induction pre with
  | nil =>
    cases u with
    | nil => rw [scoreRegexAt_nil] at h; cases h
    | cons c cs => simp [scoreRegexFind, h]
  | cons c pre1 ih =>
    have hnone : scoreRegexAt (c :: pre1 ++ u) = none := by
      cases hc : scoreRegexAt (c :: pre1 ++ u) with
      | none => rfl
      | some d =>
        have := hl [] (scoreRegexAt_sound _ _ hc)
        simp at this
    simp only [List.cons_append] at hnone ⊢
    simp only [scoreRegexFind, hnone]
    exact ih (fun pre2 h2 => by
      have := hl (c :: pre2) (labelledAt_cons c _ _ h2)
      simpa using this)

theorem scoreRegexFind_none (t : GoString) (h : ∀ pre, ¬ LabelledAt t pre) :
    scoreRegexFind t = none := by
  induction t with
  | nil => rfl
  | cons c cs ih =>
    have hnone : scoreRegexAt (c :: cs) = none := by
      cases hc : scoreRegexAt (c :: cs) with
      | none => rfl
      | some d => exact absurd (scoreRegexAt_sound _ _ hc) (h [])
    simp only [scoreRegexFind, hnone]
    exact ih (fun pre hp => h (c :: pre) (labelledAt_cons c _ _ hp))

theorem fallbackFind_run (pre ds rest : GoString) (hp : ∀ b ∈ pre, isDigit b = false)
    (hne : ds ≠ []) (hd : ∀ b ∈ ds, isDigit b = true) (hr : EndsRun rest) :
    fallbackFind (pre ++ ds ++ rest) = some ds := by
  have hdrop : (pre ++ ds ++ rest).dropWhile (fun c => !isDigit c) = ds ++ rest := by
    rw [List.append_assoc]
    apply dropWhile_run _ _ _ (fun b hb => by simp [hp b hb])
    cases ds with
    | nil => exact absurd rfl hne
    | cons d ds1 =>
      intro b hb
      simp at hb
      subst hb
      simp [hd _ (List.mem_cons_self _ _)]
  unfold fallbackFind
  simp only [hdrop, takeWhile_run isDigit ds rest hd hr]
  cases ds with
  | nil => exact absurd rfl hne
  | cons d ds1 => simp

theorem fallbackFind_none (t : GoString) (h : ∀ b ∈ t, isDigit b = false) :
    fallbackFind t = none := by
  have hdrop : t.dropWhile (fun c => !isDigit c) = [] := by
    rw [List.dropWhile_eq_nil_iff]
    intro b hb
    simp [h b hb]
  unfold fallbackFind
  simp [hdrop]

theorem scoreRegexFind_none_of_no_digit (t : GoString) (h : ∀ b ∈ t, isDigit b = false) :
    scoreRegexFind t = none := by
  apply scoreRegexFind_none
  rintro pre ⟨kw, ws, d, rest, ht, -, -, hd⟩
  have := h d (by rw [ht]; simp)
  rw [hd] at this
  cases this

theorem foldSpelling_of_match (pat kw : GoString) (h : matchFold pat kw = some []) :
    FoldSpelling pat kw := by
  obtain ⟨kw1, hk, he⟩ := matchFold_sound _ _ _ h
  simp at he
  subst he
  exact hk

theorem not_labelledAt_of_regex (t pre : GoString)
    (h : scoreRegexAt (t.drop pre.length) = none) : ¬ LabelledAt t pre := by
  intro hl
  obtain ⟨u, d, ht, hu⟩ := labelledAt_regex t pre hl
  rw [ht, List.drop_left] at h
  rw [h] at hu
  cases hu

/-! ## Score extraction -/

/-- Claim C1. Score extraction is two-tiered. If the text has a label (`score` or `rating`
in any case), a colon, optional white space and a digit, the score is the maximal digit run
after the leftmost such place, whatever digits come before it; if it has no such place but
has a digit, the score is the first maximal digit run; with no digit at all it is `N/A`.
The three sample texts of the specification give `87`, `42` and `N/A`. -/
theorem extractScore_two_tier :
    (∀ pre kw ws ds rest : GoString, IsLabel kw → (∀ b ∈ ws, isSpace b = true) → ds ≠ [] →
      (∀ b ∈ ds, isDigit b = true) → EndsRun rest →
      (∀ pre1, LabelledAt (pre ++ kw ++ 58 :: (ws ++ ds ++ rest)) pre1 →
        pre.length ≤ pre1.length) →
      extractScore (pre ++ kw ++ 58 :: (ws ++ ds ++ rest)) = ds) ∧
    (∀ pre ds rest : GoString, (∀ pre1, ¬ LabelledAt (pre ++ ds ++ rest) pre1) →
      (∀ b ∈ pre, isDigit b = false) → ds ≠ [] → (∀ b ∈ ds, isDigit b = true) →
      EndsRun rest → extractScore (pre ++ ds ++ rest) = ds) ∧
    (∀ t : GoString, (∀ b ∈ t, isDigit b = false) → extractScore t = str "N/A") ∧
    extractScore (str "Score: 87, details...") = str "87" ∧
    extractScore (str "I think this rates a 42 out of 100") = str "42" ∧
    extractScore (str "no numbers here") = str "N/A" := by
  refine ⟨?_, ?_, ?_, by decide, by decide, by decide⟩
  · intro pre kw ws ds rest hk hw hne hd hr hl
    have hat := scoreRegexAt_complete kw ws ds rest hk hw hne hd hr
    rw [List.append_assoc] at hl ⊢
    unfold extractScore
    rw [scoreRegexFind_leftmost pre _ ds hat hl]
  · intro pre ds rest hno hp hne hd hr
    unfold extractScore
    rw [scoreRegexFind_none _ hno, fallbackFind_run pre ds rest hp hne hd hr]
  · intro t ht
    simp [extractScore, scoreRegexFind_none_of_no_digit t ht, fallbackFind_none t ht]

/-- Witness for claim C1: in `7 Rating:  42!` the digit `7` comes first, the label wins. -/
theorem extractScore_two_tier_witness :
    extractScore (str "7 " ++ str "Rating" ++ 58 :: (str "  " ++ str "42" ++ str "!")) =
      str "42" :=
  extractScore_two_tier.1 (str "7 ") (str "Rating") (str "  ") (str "42") (str "!")
    (Or.inr (foldSpelling_of_match _ _ (by decide))) (by decide) (by decide) (by decide)
    (by unfold EndsRun; decide)
    (by
      intro pre1 h1
      by_contra hlt
      have hlen : pre1.length = 0 ∨ pre1.length = 1 := by
        have : (str "7 ").length = 2 := by decide
        omega
      rcases hlen with h0 | h0
      · exact not_labelledAt_of_regex _ pre1 (by rw [h0]; decide) h1
      · exact not_labelledAt_of_regex _ pre1 (by rw [h0]; decide) h1)

/-! ## Report selection -/

theorem all_isDigit (body : GoString) (hd : ∀ b ∈ body, isDigit b = true) :
    body.all isDigit = true := by
  simpa [List.all_eq_true] using hd

theorem Atoi_unsigned (body : GoString) (hne : body ≠ []) (hd : ∀ b ∈ body, isDigit b = true) :
    Atoi body = rangeCheck (digitsValue body : Int) := by
  cases body with
  | nil => exact absurd rfl hne
  | cons d r =>
    have h48 := hd d (List.mem_cons_self _ _)
    have hall := all_isDigit _ hd
    have h1 : d ≠ 45 := by rintro rfl; revert h48; decide
    have h2 : d ≠ 43 := by rintro rfl; revert h48; decide
    simp [Atoi, rangeCheck, h1, h2, hall]

theorem Atoi_plus (body : GoString) (hne : body ≠ []) (hd : ∀ b ∈ body, isDigit b = true) :
    Atoi (43 :: body) = rangeCheck (digitsValue body : Int) := by
  have hall := all_isDigit _ hd
  have hemp : body.isEmpty = false := by cases body <;> simp_all
  simp [Atoi, rangeCheck, hall, hemp]

theorem Atoi_minus (body : GoString) (hne : body ≠ []) (hd : ∀ b ∈ body, isDigit b = true) :
    Atoi (45 :: body) = rangeCheck (-(digitsValue body : Int)) := by
  have hall := all_isDigit _ hd
  have hemp : body.isEmpty = false := by cases body <;> simp_all
  simp [Atoi, rangeCheck, hall, hemp]

theorem Atoi_denotes (s : GoString) (v : Int) (h : Denotes s v) : Atoi s = rangeCheck v := by
  obtain ⟨body, hne, hd, hcase⟩ := h
  rcases hcase with ⟨hs, hv⟩ | ⟨hs, hv⟩
  · rcases hs with hs | hs
    · rw [hs, hv]; exact Atoi_unsigned body hne hd
    · rw [hs, hv]; exact Atoi_plus body hne hd
  · rw [hs, hv]; exact Atoi_minus body hne hd

theorem bad_body (r : GoString) (hb : ¬ (r ≠ [] ∧ ∀ b ∈ r, isDigit b = true)) :
    (r.isEmpty || !r.all isDigit) = true := by
  by_cases hr : r = []
  · simp [hr]
  · have hx : ¬ ∀ b ∈ r, isDigit b = true := fun hx => hb ⟨hr, hx⟩
    have : r.all isDigit = false := by
      by_contra hc
      apply hx
      simpa [List.all_eq_true] using hc
    simp [this]

theorem Atoi_syntax (s : GoString) (h : ∀ v, ¬ Denotes s v) :
    Atoi s = .error "invalid syntax" := by
  by_cases hs : s.head? = some 45
  · obtain ⟨r, rfl⟩ : ∃ r, s = 45 :: r := by
      cases s with
      | nil => simp at hs
      | cons c r => simp at hs; exact ⟨r, by rw [hs]⟩
    by_cases hb : r ≠ [] ∧ ∀ b ∈ r, isDigit b = true
    · exact absurd ⟨r, hb.1, hb.2, Or.inr ⟨rfl, rfl⟩⟩ (h _)
    · have hbad := bad_body r hb
      simp only [Atoi, List.head?_cons, beq_self_eq_true, Bool.true_or, if_true, List.tail_cons,
        hbad]
  · by_cases hp : s.head? = some 43
    · obtain ⟨r, rfl⟩ : ∃ r, s = 43 :: r := by
        cases s with
        | nil => simp at hp
        | cons c r => simp at hp; exact ⟨r, by rw [hp]⟩
      by_cases hb : r ≠ [] ∧ ∀ b ∈ r, isDigit b = true
      · exact absurd ⟨r, hb.1, hb.2, Or.inl ⟨Or.inr rfl, rfl⟩⟩ (h _)
      · have hbad := bad_body r hb
        simp only [Atoi, List.head?_cons, beq_self_eq_true, Bool.or_true, if_true,
          List.tail_cons, hbad]
    · by_cases hb : s ≠ [] ∧ ∀ b ∈ s, isDigit b = true
      · exact absurd ⟨s, hb.1, hb.2, Or.inl ⟨Or.inl rfl, rfl⟩⟩ (h _)
      · have hbad := bad_body s hb
        have e1 : (s.head? == some 45) = false := by simpa using hs
        have e2 : (s.head? == some 43) = false := by simpa using hp
        simp only [Atoi, e1, e2, Bool.or_self, hbad, if_true]
        simp
        intro hne hall
        exact absurd ⟨hne, hall⟩ hb

theorem foldl_append_filter (p : Article → Bool) (l acc : List Article) :
    l.foldl (fun acc art => if p art = true then acc ++ [art] else acc) acc =
      acc ++ l.filter p := by
  induction l generalizing acc with
  | nil => simp
  | cons a l ih =>
    by_cases h : p a = true
    · simp [List.foldl, h, ih, List.filter]
    · simp [List.foldl, h, ih, List.filter]

theorem validArticles_eq_filter (thr : Int) (articles : List Article) :
    validArticles thr articles =
      articles.filter (fun art => decide (thr ≤ scoreOrZero art.Score)) := by
  have h := foldl_append_filter (fun art => decide (thr ≤ scoreOrZero art.Score)) articles []
  simp only [List.nil_append, decide_eq_true_eq] at h
  exact h

theorem rangeCheck_in (v : Int) (h : InIntRange v) : rangeCheck v = .ok v := by
  obtain ⟨h1, h2⟩ := h
  have : ¬ (v < -(2 : Int) ^ (intSize - 1) ∨ (2 : Int) ^ (intSize - 1) - 1 < v) := by
    simp only [intSize]
    norm_num
    omega
  simp only [rangeCheck, this, if_false]

theorem rangeCheck_out (v : Int) (h : ¬ InIntRange v) :
    rangeCheck v = .error "value out of range" := by
  have : v < -(2 : Int) ^ (intSize - 1) ∨ (2 : Int) ^ (intSize - 1) - 1 < v := by
    simp only [intSize]
    unfold InIntRange at h
    norm_num at h ⊢
    omega
  simp only [rangeCheck, this, if_true]

/-- Claim C2. The filter loop of `generateReport` keeps, in their order, exactly the
candidates whose value is at least the threshold, where the value is the integer the score
denotes when that integer fits an `int` and 0 otherwise (out of range, empty, `N/A`, or any
text that is no numeral). So an article with an empty or `N/A` score is left out for every
threshold above 0 and kept for every threshold of 0 or below. -/
theorem validArticles_filter :
    (∀ (thr : Int) (articles : List Article),
      validArticles thr articles =
        articles.filter (fun art => decide (thr ≤ scoreOrZero art.Score))) ∧
    (∀ (s : GoString) (v : Int), Denotes s v → InIntRange v → scoreOrZero s = v) ∧
    (∀ (s : GoString) (v : Int), Denotes s v → ¬ InIntRange v → scoreOrZero s = 0) ∧
    (∀ s : GoString, (∀ v, ¬ Denotes s v) → scoreOrZero s = 0) ∧
    scoreOrZero [] = 0 ∧ scoreOrZero (str "N/A") = 0 ∧
    (∀ (thr : Int) (articles : List Article) (art : Article), art ∈ articles →
      (art.Score = [] ∨ art.Score = str "N/A") →
      (0 < thr → art ∉ validArticles thr articles) ∧
        (thr ≤ 0 → art ∈ validArticles thr articles)) := by
  have h0 : scoreOrZero [] = 0 := by decide
  have hna : scoreOrZero (str "N/A") = 0 := by decide
  refine ⟨validArticles_eq_filter, ?_, ?_, ?_, h0, hna, ?_⟩
  · intro s v hd hr
    simp only [scoreOrZero, Atoi_denotes s v hd, rangeCheck_in v hr]
  · intro s v hd hr
    simp only [scoreOrZero, Atoi_denotes s v hd, rangeCheck_out v hr]
  · intro s hs
    simp only [scoreOrZero, Atoi_syntax s hs]
  · intro thr articles art hmem hscore
    have hz : scoreOrZero art.Score = 0 := by
      rcases hscore with h | h <;> rw [h] <;> assumption
    rw [validArticles_eq_filter]
    constructor
    · intro hpos hin
      have := (List.mem_filter.1 hin).2
      simp only [hz, decide_eq_true_eq] at this
      omega
    · intro hle
      exact List.mem_filter.2 ⟨hmem, by simp only [hz, decide_eq_true_eq]; exact hle⟩

/-- Witness for claim C2: the score `75` denotes 75, which fits an `int`. -/
theorem validArticles_filter_witness : scoreOrZero (str "75") = 75 :=
  validArticles_filter.2.1 (str "75") 75
    ⟨str "75", by decide, by decide, Or.inl ⟨Or.inl rfl, by decide⟩⟩
    (by unfold InIntRange; norm_num)

/-! ## Fetch -/

theorem any_guid_iff (d : DB) (g : GoString) :
    d.any (fun a => a.GUID == g) = true ↔ g ∈ guids d := by
  simp only [guids, List.any_eq_true, List.mem_map, beq_iff_eq]

theorem fetchItem_eq (env : FetchEnv) (url : GoString) (st : FetchState) (item : Item) :
    fetchItem env url st item =
      if effectiveGUID item ∈ guids st.db then { st with existing := st.existing + 1 }
      else { st with db := st.db ++ [newArticle env url item], added := st.added + 1 } := by
  by_cases h : effectiveGUID item ∈ guids st.db
  · have h1 := (any_guid_iff st.db _).2 h
    simp only [fetchItem, DB.ArticleExists, h1, h, if_true]
  · have h1 : st.db.any (fun a => a.GUID == effectiveGUID item) = false := by
      cases hc : st.db.any (fun a => a.GUID == effectiveGUID item) with
      | false => rfl
      | true => exact absurd ((any_guid_iff st.db _).1 hc) h
    have h2 : st.db.any (fun a => a.GUID == (newArticle env url item).GUID) = false := h1
    simp only [fetchItem, DB.ArticleExists, h1, DB.SaveArticle, h2, h, if_false,
      Bool.false_eq_true]
    rfl

theorem guids_append (d e : DB) : guids (d ++ e) = guids d ++ guids e := by
  simp [guids]

theorem fetchItem_mono (env : FetchEnv) (url : GoString) (st : FetchState) (item : Item)
    (g : GoString) (h : g ∈ guids st.db) : g ∈ guids (fetchItem env url st item).db := by
  rw [fetchItem_eq]
  split
  · exact h
  · simp only [guids_append, List.mem_append]
    exact Or.inl h

theorem fetchItem_covers (env : FetchEnv) (url : GoString) (st : FetchState) (item : Item) :
    effectiveGUID item ∈ guids (fetchItem env url st item).db := by
  rw [fetchItem_eq]
  split
  · assumption
  · simp only [guids_append, List.mem_append]
    right
    simp [guids, newArticle]

theorem fetchLoop_mono (env : FetchEnv) (url : GoString) (items : List Item) (st : FetchState)
    (g : GoString) (h : g ∈ guids st.db) :
    g ∈ guids (items.foldl (fetchItem env url) st).db := by
  induction items generalizing st with
  | nil => exact h
  | cons item rest ih => exact ih _ (fetchItem_mono env url st item g h)

theorem fetchLoop_covers (env : FetchEnv) (url : GoString) (items : List Item) (st : FetchState)
    (item : Item) (hi : item ∈ items) :
    effectiveGUID item ∈ guids (items.foldl (fetchItem env url) st).db := by
  induction items generalizing st with
  | nil => cases hi
  | cons it rest ih =>
    rcases List.mem_cons.1 hi with rfl | hr
    · exact fetchLoop_mono env url rest _ _ (fetchItem_covers env url st item)
    · exact ih _ hr

theorem fetchLoop_known (env : FetchEnv) (url : GoString) (items : List Item) (st : FetchState)
    (h : ∀ item ∈ items, effectiveGUID item ∈ guids st.db) :
    items.foldl (fetchItem env url) st = { st with existing := st.existing + items.length } := by
  induction items generalizing st with
  | nil => rfl
  | cons it rest ih =>
    have h1 := h it (List.mem_cons_self _ _)
    have hstep : fetchItem env url st it = { st with existing := st.existing + 1 } := by
      rw [fetchItem_eq, if_pos h1]
    rw [List.foldl_cons, hstep,
      ih { st with existing := st.existing + 1 }
        (fun item hi => h item (List.mem_cons_of_mem _ hi))]
    simp only [List.length_cons]
    congr 1
    omega

/-- Claim C3. Fetching the same feed a second time, whatever the clock and the sanitizer
do then, leaves the store exactly as the first fetch left it: every item is counted as
existing, none is added, and the number of rows is unchanged. The feed may repeat a guid or
carry empty guids. -/
theorem fetchAndSave_idempotent (env1 env2 : FetchEnv) (db : DB) (url : GoString)
    (items : List Item) (h1 : env1.FetchFeed url = .ok items)
    (h2 : env2.FetchFeed url = .ok items) :
    fetchAndSave env2 (fetchAndSave env1 db url).1 url =
        ((fetchAndSave env1 db url).1,
          .ok { received := items.length, existing := items.length, added := 0 }) ∧
      (fetchAndSave env2 (fetchAndSave env1 db url).1 url).1.length =
        (fetchAndSave env1 db url).1.length := by
  have hcov : ∀ item ∈ items, effectiveGUID item ∈ guids (fetchAndSave env1 db url).1 := by
    intro item hi
    simp only [fetchAndSave, h1]
    exact fetchLoop_covers env1 url items _ item hi
  generalize (fetchAndSave env1 db url).1 = db1 at hcov ⊢
  have hsecond : fetchAndSave env2 db1 url =
      (db1, .ok { received := items.length, existing := items.length, added := 0 }) := by
    have hk := fetchLoop_known env2 url items { db := db1, existing := 0, added := 0 } hcov
    simp only [fetchAndSave, h2, hk, Nat.zero_add]
  exact ⟨hsecond, by rw [hsecond]⟩

/-- Witness for claim C3: the sample feed, fetched twice into an empty store. -/
theorem fetchAndSave_idempotent_witness :
    fetchAndSave demoFetchEnv (fetchAndSave demoFetchEnv [] (str "u")).1 (str "u") =
        ((fetchAndSave demoFetchEnv [] (str "u")).1,
          .ok { received := 3, existing := 3, added := 0 }) ∧
      (fetchAndSave demoFetchEnv (fetchAndSave demoFetchEnv [] (str "u")).1 (str "u")).1.length =
        (fetchAndSave demoFetchEnv [] (str "u")).1.length :=
  fetchAndSave_idempotent demoFetchEnv demoFetchEnv [] (str "u") demoItems rfl rfl

theorem fetchItem_rows (env : FetchEnv) (url : GoString) (st : FetchState) (item : Item)
    (r : Article) (h : r ∈ (fetchItem env url st item).db) :
    r ∈ st.db ∨ (r = newArticle env url item ∧ effectiveGUID item ∉ guids st.db) := by
  rw [fetchItem_eq] at h
  split at h
  · exact Or.inl h
  · rename_i hn
    rcases List.mem_append.1 h with h | h
    · exact Or.inl h
    · exact Or.inr ⟨List.mem_singleton.1 h, hn⟩

theorem fetchLoop_rows (env : FetchEnv) (url : GoString) (items : List Item) (st : FetchState)
    (r : Article) (h : r ∈ (items.foldl (fetchItem env url) st).db) :
    r ∈ st.db ∨ ∃ item ∈ items, r = newArticle env url item ∧
      effectiveGUID item ∉ guids st.db := by
  induction items generalizing st with
  | nil => exact Or.inl h
  | cons it rest ih =>
    rcases ih _ h with h1 | ⟨item, hi, hr, hn⟩
    · rcases fetchItem_rows env url st it r h1 with h2 | ⟨h2, h3⟩
      · exact Or.inl h2
      · exact Or.inr ⟨it, List.mem_cons_self _ _, h2, h3⟩
    · exact Or.inr ⟨item, List.mem_cons_of_mem _ hi, hr,
        fun hc => hn (fetchItem_mono env url st it _ hc)⟩

theorem fetchLoop_prefix (env : FetchEnv) (url : GoString) (items : List Item)
    (st : FetchState) :
    ∃ added : List Article, (items.foldl (fetchItem env url) st).db = st.db ++ added ∧
      (∀ r ∈ added, r.GUID ∉ guids st.db) ∧
      ((guids st.db).Nodup → (guids (st.db ++ added)).Nodup) := by
  induction items generalizing st with
  | nil => exact ⟨[], by simp, by simp, by simp⟩
  | cons it rest ih =>
    obtain ⟨added, he, hnew, hnd⟩ := ih (fetchItem env url st it)
    rw [List.foldl_cons, he]
    rw [fetchItem_eq] at he hnew hnd ⊢
    by_cases hk : effectiveGUID it ∈ guids st.db
    · simp only [hk, if_true] at he hnew hnd ⊢
      exact ⟨added, rfl, hnew, hnd⟩
    · simp only [hk, if_false] at he hnew hnd ⊢
      refine ⟨newArticle env url it :: added, by simp, ?_, ?_⟩
      · intro r hr
        rcases List.mem_cons.1 hr with rfl | hr
        · exact hk
        · intro hc
          exact hnew r hr (by rw [guids_append]; exact List.mem_append_left _ hc)
      · intro hn
        have : (guids (st.db ++ [newArticle env url it])).Nodup := by
          rw [guids_append]
          refine List.Nodup.append hn (by simp [guids]) ?_
          intro g hg1 hg2
          simp only [guids, List.map_cons, List.map_nil, List.mem_singleton] at hg2
          subst hg2
          exact hk hg1
        simpa using hnd this

/-- Claim C4. A row that `fetchAndSave` stores comes from a feed item, and its guid is the
item's GUID when that is not empty and the item's link otherwise; the existence check that
decides whether the item is stored looks for that same guid, and after the fetch every item
of the feed has a row under it. -/
theorem fetchAndSave_guid_fallback (env : FetchEnv) (db : DB) (url : GoString)
    (items : List Item) (h : env.FetchFeed url = .ok items) :
    (∀ r ∈ (fetchAndSave env db url).1, r ∈ db ∨ ∃ item ∈ items,
      r = newArticle env url item ∧
      r.GUID = (if item.GUID ≠ [] then item.GUID else item.Link) ∧
      (if item.GUID ≠ [] then item.GUID else item.Link) ∉ guids db) ∧
    (∀ item ∈ items,
      (if item.GUID ≠ [] then item.GUID else item.Link) ∈ guids (fetchAndSave env db url).1) ∧
    (∀ (st : FetchState) (item : Item), (fetchItem env url st item).db =
      if (if item.GUID ≠ [] then item.GUID else item.Link) ∈ guids st.db then st.db
      else st.db ++ [newArticle env url item]) := by
  have heff : ∀ item : Item,
      (if item.GUID ≠ [] then item.GUID else item.Link) = effectiveGUID item := by
    intro item
    by_cases hg : item.GUID = [] <;> simp [effectiveGUID, hg]
  have hdb : (fetchAndSave env db url).1 =
      (items.foldl (fetchItem env url) { db := db, existing := 0, added := 0 }).db := by
    simp only [fetchAndSave, h]
  refine ⟨?_, ?_, ?_⟩
  · intro r hr
    rw [hdb] at hr
    rcases fetchLoop_rows env url items _ r hr with h1 | ⟨item, hi, h2, h3⟩
    · exact Or.inl h1
    · refine Or.inr ⟨item, hi, h2, ?_, ?_⟩
      · rw [heff, h2]; rfl
      · rw [heff]; exact h3
  · intro item hi
    rw [heff, hdb]
    exact fetchLoop_covers env url items _ item hi
  · intro st item
    rw [heff, fetchItem_eq]
    split <;> rfl

/-- Witness for claim C4: the first item of the sample feed has no guid, and after the fetch
the store holds a row under its link. -/
theorem fetchAndSave_guid_fallback_witness :
    str "http://x/1" ∈ guids (fetchAndSave demoFetchEnv demoStore (str "u")).1 :=
  (fetchAndSave_guid_fallback demoFetchEnv demoStore (str "u") demoItems rfl).2.1
    { GUID := [], Title := str "Z80 Project", Link := str "http://x/1",
      Description := str "a build", Content := [], PublishedParsed := none }
    (by decide)

/-- Claim C5. `fetchAndSave` only appends rows: the rows present before are all present
afterwards, in place and with every field unchanged, also when the feed carries an item
under the guid of one of them; the appended rows have guids the store did not hold, and a
store without duplicate guids stays without duplicate guids. -/
theorem fetchAndSave_never_overwrites (env : FetchEnv) (db : DB) (url : GoString) :
    (∃ added : List Article, (fetchAndSave env db url).1 = db ++ added ∧
      ∀ r ∈ added, r.GUID ∉ guids db) ∧
    ((guids db).Nodup → (guids (fetchAndSave env db url).1).Nodup) := by
  cases hf : env.FetchFeed url with
  | error e =>
    simp only [fetchAndSave, hf]
    exact ⟨⟨[], by simp, by simp⟩, fun h => h⟩
  | ok items =>
    obtain ⟨added, he, hnew, hnd⟩ :=
      fetchLoop_prefix env url items { db := db, existing := 0, added := 0 }
    simp only [fetchAndSave, hf, he]
    exact ⟨⟨added, rfl, hnew⟩, hnd⟩

/-- Witness for claim C5: the sample store has one row, hence no duplicate guid, and the
sample feed carries two items under that row's guid. -/
theorem fetchAndSave_never_overwrites_witness :
    (guids (fetchAndSave demoFetchEnv demoStore (str "u")).1).Nodup :=
  (fetchAndSave_never_overwrites demoFetchEnv demoStore (str "u")).2 (by decide)

/-! ## Candidates for scoring -/

theorem like_globToLike (p : GoString) (h1 : (37 : UInt8) ∉ p) (h2 : (95 : UInt8) ∉ p) :
    ∀ t, sqlLike (globToLike p) t = globMatchFold p t ∧
      sqlLikeAll (globToLike p) t = globStarFold p t := by
  induction p with
  | nil =>
    intro t
    simp [globToLike, sqlLike, sqlLikeAll, globMatchFold, globStarFold]
  | cons b ps ih =>
    have hb1 : b ≠ 37 := fun h => h1 (by simp [h])
    have hb2 : b ≠ 95 := fun h => h2 (by simp [h])
    have ih1 := ih (fun h => h1 (List.mem_cons_of_mem _ h))
      (fun h => h2 (List.mem_cons_of_mem _ h))
    have hcons : globToLike (b :: ps) =
        (if (if b = 42 then (37 : UInt8) else b) = 63 then 95
          else (if b = 42 then (37 : UInt8) else b)) :: globToLike ps := by
      simp [globToLike]
    intro t
    rw [hcons]
    by_cases h42 : b = 42
    · subst h42
      have e : (if (if (42 : UInt8) = 42 then (37 : UInt8) else 42) = 63 then (95 : UInt8)
          else (if (42 : UInt8) = 42 then (37 : UInt8) else 42)) = 37 := by decide
      rw [e]
      simp only [sqlLike, sqlLikeAll, globMatchFold, globStarFold, if_true]
      exact ⟨(ih1 t).2, (ih1 t).2⟩
    · by_cases h63 : b = 63
      · subst h63
        have e : (if (if (63 : UInt8) = 42 then (37 : UInt8) else 63) = 63 then (95 : UInt8)
            else (if (63 : UInt8) = 42 then (37 : UInt8) else 63)) = 95 := by decide
        have n1 : ¬ ((95 : UInt8) = 37) := by decide
        have n2 : ¬ ((63 : UInt8) = 42) := by decide
        rw [e]
        simp only [sqlLike, sqlLikeAll, globMatchFold, globStarFold, n1, n2, if_true, if_false]
        cases skipUtf8 t with
        | none => exact ⟨rfl, rfl⟩
        | some r => exact ih1 r
      · have e : (if (if b = 42 then (37 : UInt8) else b) = 63 then (95 : UInt8)
            else (if b = 42 then (37 : UInt8) else b)) = b := by
          simp only [h42, h63, if_false]
        rw [e]
        simp only [sqlLike, sqlLikeAll, globMatchFold, globStarFold, hb1, hb2, h42, h63,
          if_false]
        refine ⟨?_, ?_⟩
        · cases t with
          | nil => rfl
          | cons c cs => simp only [(ih1 cs).1]
        · congr 1
          funext u
          cases u with
          | nil => rfl
          | cons c cs => simp only [(ih1 cs).1]

theorem sqlLike_globToLike (p : GoString) (h1 : (37 : UInt8) ∉ p) (h2 : (95 : UInt8) ∉ p)
    (t : GoString) : sqlLike (globToLike p) t = globMatchFold p t :=
  (like_globToLike p h1 h2 t).1

/-- A wildcard for one character behind a wildcard for any sequence takes a whole character:
the title `€` has one character, so it matches `%_` and `*?` but neither `%__` nor `*??`,
and the same holds with the wildcards in the other order. -/
theorem like_whole_characters :
    sqlLike (str "%_") (str "€") = true ∧ sqlLike (str "%__") (str "€") = false ∧
    sqlLike (str "%_%_") (str "€") = false ∧ sqlLike (str "__%") (str "€") = false ∧
    sqlLike (str "%_b") (str "日€b") = true ∧ sqlLike (str "%__") (str "日€") = true ∧
    globMatchFold (str "*?") (str "€") = true ∧ globMatchFold (str "*??") (str "€") = false ∧
    globMatch (str "*??") (str "€") = false ∧ globMatch (str "??*") (str "€") = false := by
  decide

/-- Claim C6 fails as stated: with the pattern `*retro*` the code returns the scored row
titled `Retro computer`, whose title the glob of the claim does not match, since LIKE
compares ASCII letters without regard to case. -/
theorem getArticlesToScore_glob_counterexample :
    DB.GetArticlesToScore [retroRow] (str "*retro*") ≠
      .ok (([retroRow].filter
        (fun a => unscored a || globMatch (str "*retro*") a.Title)).map scanTen) := by
  decide

/-- Claim C6, amended. With an empty pattern `GetArticlesToScore` returns exactly the rows
whose score is empty or `N/A`; with a non-empty pattern that contains neither `%` nor `_`
it returns exactly the rows that are unscored in that sense or whose title matches the
pattern as a glob in which `*` matches any sequence of characters, `?` exactly one
character, and every other character itself up to the case of ASCII letters. Rows come in
table order, each with the ten columns the query selects (`reported` is not read). -/
theorem getArticlesToScore_candidates (d : DB) (p : GoString) :
    (∀ a : Article, unscored a = true ↔ (a.Score = [] ∨ a.Score = str "N/A")) ∧
    (p = [] → DB.GetArticlesToScore d p = .ok ((d.filter unscored).map scanTen)) ∧
    (p ≠ [] → (37 : UInt8) ∉ p → (95 : UInt8) ∉ p →
      DB.GetArticlesToScore d p =
        .ok ((d.filter (fun a => unscored a || globMatchFold p a.Title)).map scanTen)) := by
  refine ⟨?_, ?_, ?_⟩
  · intro a
    simp [unscored]
  · intro hp
    simp [DB.GetArticlesToScore, hp]
  · intro hp h1 h2
    have hfun : (fun a : Article => unscored a || sqlLike (globToLike p) a.Title) =
        fun a => unscored a || globMatchFold p a.Title :=
      funext (fun a => by rw [sqlLike_globToLike p h1 h2])
    simp only [DB.GetArticlesToScore, hp, ne_eq, not_false_eq_true, if_true, hfun]

/-- Witness for claim C6: the patterns `*retro*`, `*??` and `*?` have neither `%` nor `_`.
The scored row whose title is the one character `€` is not returned for `*??`, which asks
for two characters, and is returned for `*?`. -/
theorem getArticlesToScore_candidates_witness :
    DB.GetArticlesToScore [retroRow] (str "*retro*") =
      .ok (([retroRow].filter
        (fun a => unscored a || globMatchFold (str "*retro*") a.Title)).map scanTen) ∧
    DB.GetArticlesToScore [euroRow] (str "*??") = .ok [] ∧
    DB.GetArticlesToScore [euroRow] (str "*?") = .ok [scanTen euroRow] :=
  ⟨(getArticlesToScore_candidates [retroRow] (str "*retro*")).2.2 (by decide) (by decide)
      (by decide),
    ((getArticlesToScore_candidates [euroRow] (str "*??")).2.2 (by decide) (by decide)
      (by decide)).trans (by decide),
    ((getArticlesToScore_candidates [euroRow] (str "*?")).2.2 (by decide) (by decide)
      (by decide)).trans (by decide)⟩

/-! ## Scoring -/

theorem scoreLoop_cons (env : ScoreEnv) (tmpl : Template) (art : Article) (rest : List Article)
    (db : DB) :
    scoreLoop env tmpl (art :: rest) db =
      match callResult env tmpl art with
      | none => scoreLoop env tmpl rest db
      | some resp =>
        match resp.Choices with
        | [] => (db, .panic "runtime error: index out of range [0] with length 0")
        | choice :: _ =>
          scoreLoop env tmpl rest (db.map (fun a =>
            if a.GUID = art.GUID then withScore env.model choice.Message.Content a else a)) := by
  cases h1 : tmpl { Title := art.Title, Description := art.Description,
                    Content := TrimString art.Content MAX_AI_CONTENT_LENGTH } with
  | error e => simp only [scoreLoop, callResult, h1]
  | ok articlePrompt =>
    cases h2 : env.CreateChatCompletion art (chatRequest env articlePrompt) with
    | error e => simp only [scoreLoop, callResult, h1, h2]
    | ok resp =>
      cases h3 : resp.Choices with
      | nil => simp only [scoreLoop, callResult, h1, h2, h3]
      | cons choice more =>
        simp only [scoreLoop, callResult, h1, h2, h3, DB.UpdateArticleScore, withScore]

theorem scoreLoop_filter (env : ScoreEnv) (tmpl : Template) (cands : List Article) (db : DB) :
    scoreLoop env tmpl cands db =
      scoreLoop env tmpl (cands.filter (fun a => !fails env tmpl a)) db := by
  induction cands generalizing db with
  | nil => rfl
  | cons art rest ih =>
    cases hc : callResult env tmpl art with
    | none =>
      have hf : (art :: rest).filter (fun a => !fails env tmpl a) =
          rest.filter (fun a => !fails env tmpl a) := by
        simp [List.filter, fails, hc]
      rw [hf, scoreLoop_cons]
      simp only [hc]
      exact ih db
    | some resp =>
      have hf : (art :: rest).filter (fun a => !fails env tmpl a) =
          art :: rest.filter (fun a => !fails env tmpl a) := by
        simp [List.filter, fails, hc]
      rw [hf, scoreLoop_cons, scoreLoop_cons]
      simp only [hc]
      cases hch : resp.Choices with
      | nil => rfl
      | cons choice more => exact ih _

theorem rowStep_of_none (env : ScoreEnv) (tmpl : Template) (a art : Article)
    (h : callResult env tmpl art = none) : rowStep env tmpl a art = a := by
  simp only [rowStep, responseText, h]

theorem scoreLoop_ok (env : ScoreEnv) (tmpl : Template) (cands : List Article) (db : DB)
    (hwf : WellFormed env tmpl cands) :
    scoreLoop env tmpl cands db =
      (db.map (fun a => cands.foldl (rowStep env tmpl) a), .ok) := by
  induction cands generalizing db with
  | nil => simp [scoreLoop]
  | cons art rest ih =>
    have hrest : WellFormed env tmpl rest :=
      fun a ha resp hr => hwf a (List.mem_cons_of_mem _ ha) resp hr
    rw [scoreLoop_cons]
    cases hc : callResult env tmpl art with
    | none =>
      simp only [List.foldl_cons, rowStep_of_none env tmpl _ art hc]
      exact ih db hrest
    | some resp =>
      have hne := hwf art (List.mem_cons_self _ _) resp hc
      cases hch : resp.Choices with
      | nil => exact absurd hch hne
      | cons choice more =>
        have hstep : ∀ a : Article, rowStep env tmpl a art =
            if a.GUID = art.GUID then withScore env.model choice.Message.Content a else a := by
          intro a
          simp only [rowStep, responseText, hc, hch]
        simp only [hch, ih _ hrest, List.map_map, List.foldl_cons, hstep]
        rfl

theorem scoreLoop_wellFormed (env : ScoreEnv) (tmpl : Template) (cands : List Article)
    (db : DB) (h : (scoreLoop env tmpl cands db).2 = .ok) : WellFormed env tmpl cands := by
  induction cands generalizing db with
  | nil => intro a ha; cases ha
  | cons art rest ih =>
    rw [scoreLoop_cons] at h
    intro a ha resp hr
    cases hc : callResult env tmpl art with
    | none =>
      simp only [hc] at h
      rcases List.mem_cons.1 ha with rfl | ha
      · rw [hc] at hr; cases hr
      · exact ih db h a ha resp hr
    | some resp1 =>
      simp only [hc] at h
      cases hch : resp1.Choices with
      | nil => simp only [hch] at h; cases h
      | cons choice more =>
        simp only [hch] at h
        rcases List.mem_cons.1 ha with rfl | ha
        · rw [hc] at hr
          cases hr
          rw [hch]
          exact List.cons_ne_nil _ _
        · exact ih _ h a ha resp hr

theorem rowStep_guid (env : ScoreEnv) (tmpl : Template) (a art : Article) :
    (rowStep env tmpl a art).GUID = a.GUID := by
  unfold rowStep
  cases responseText env tmpl art with
  | none => rfl
  | some r =>
    by_cases h : a.GUID = art.GUID
    · simp only [h, if_true, withScore]
    · simp only [h, if_false]

theorem rowFold_other (env : ScoreEnv) (tmpl : Template) (cands : List Article) (a : Article)
    (h : ∀ art ∈ cands, art.GUID ≠ a.GUID) : cands.foldl (rowStep env tmpl) a = a := by
  induction cands with
  | nil => rfl
  | cons c rest ih =>
    have hc : rowStep env tmpl a c = a := by
      have hne : ¬ a.GUID = c.GUID := fun e => h c (List.mem_cons_self _ _) e.symm
      unfold rowStep
      cases responseText env tmpl c with
      | none => rfl
      | some r => simp only [hne, if_false]
    rw [List.foldl_cons, hc]
    exact ih (fun art ha => h art (List.mem_cons_of_mem _ ha))

theorem rowFold_hit (env : ScoreEnv) (tmpl : Template) (cands : List Article)
    (a art : Article) (hnd : (guids cands).Nodup) (hmem : art ∈ cands)
    (hg : art.GUID = a.GUID) :
    cands.foldl (rowStep env tmpl) a =
      match responseText env tmpl art with
      | some r => withScore env.model r a
      | none => a := by
  induction cands generalizing a with
  | nil => cases hmem
  | cons c rest ih =>
    simp only [guids, List.map_cons, List.nodup_cons] at hnd
    obtain ⟨hc, hrest⟩ := hnd
    rw [List.foldl_cons]
    rcases List.mem_cons.1 hmem with rfl | hin
    · have hother : ∀ x ∈ rest, x.GUID ≠ (rowStep env tmpl a art).GUID := by
        intro x hx e
        rw [rowStep_guid, ← hg] at e
        exact hc (List.mem_map.2 ⟨x, hx, e⟩)
      rw [rowFold_other env tmpl rest _ hother]
      unfold rowStep
      cases responseText env tmpl art with
      | none => rfl
      | some r => simp only [hg, if_true]
    · have hne : ¬ a.GUID = c.GUID := by
        intro e
        apply hc
        exact List.mem_map.2 ⟨art, hin, by rw [hg, e]⟩
      have hstep : rowStep env tmpl a c = a := by
        unfold rowStep
        cases responseText env tmpl c with
        | none => rfl
        | some r => simp only [hne, if_false]
      rw [hstep]
      exact ih a hrest hin hg

theorem getArticlesToScore_eq (d : DB) (p : GoString) :
    DB.GetArticlesToScore d p = .ok ((d.filter (isCandidate p)).map scanTen) := by
  by_cases hp : p = []
  · subst hp
    have : isCandidate [] = unscored := by funext a; simp [isCandidate]
    simp [DB.GetArticlesToScore, this]
  · have : isCandidate p = fun a => unscored a || sqlLike (globToLike p) a.Title := by
      funext a; simp [isCandidate, hp]
    simp [DB.GetArticlesToScore, hp, this]

theorem rowFold_candidates (env : ScoreEnv) (tmpl : Template) (p : GoString) (db : DB)
    (hnd : (guids db).Nodup) (row : Article) (hrow : row ∈ db) :
    ((db.filter (isCandidate p)).map scanTen).foldl (rowStep env tmpl) row =
      scoredRow env tmpl p row := by
  have hsub : (guids ((db.filter (isCandidate p)).map scanTen)).Nodup := by
    have e : guids ((db.filter (isCandidate p)).map scanTen) =
        guids (db.filter (isCandidate p)) := by
      simp [guids, List.map_map, Function.comp_def, scanTen]
    rw [e]
    exact hnd.sublist (List.Sublist.map _ (List.filter_sublist db))
  by_cases hc : isCandidate p row = true
  · have hmem : scanTen row ∈ (db.filter (isCandidate p)).map scanTen :=
      List.mem_map.2 ⟨row, List.mem_filter.2 ⟨hrow, hc⟩, rfl⟩
    rw [rowFold_hit env tmpl _ row (scanTen row) hsub hmem rfl]
    simp only [scoredRow, hc, if_true]
  · have hother : ∀ art ∈ (db.filter (isCandidate p)).map scanTen, art.GUID ≠ row.GUID := by
      intro art ha e
      obtain ⟨row1, h1, rfl⟩ := List.mem_map.1 ha
      obtain ⟨h1a, h1b⟩ := List.mem_filter.1 h1
      have : row1 = row := List.inj_on_of_nodup_map hnd h1a hrow e
      rw [this] at h1b
      exact hc h1b
    rw [rowFold_other env tmpl _ row hother]
    simp only [scoredRow, hc, if_false, Bool.false_eq_true]

theorem scoreArticles_run (env : ScoreEnv) (db : DB) (p : GoString) (showResponse : Bool)
    (tmpl : Template) (hkey : env.api_key ≠ []) (htmpl : promptTemplate env = .ok tmpl)
    (hnd : (guids db).Nodup)
    (hwf : WellFormed env tmpl ((db.filter (isCandidate p)).map scanTen)) :
    scoreArticles env db p showResponse = (db.map (scoredRow env tmpl p), .ok) := by
  have hmap : db.map (fun a => ((db.filter (isCandidate p)).map scanTen).foldl
      (rowStep env tmpl) a) = db.map (scoredRow env tmpl p) :=
    List.map_congr_left (fun a ha => rowFold_candidates env tmpl p db hnd a ha)
  unfold scoreArticles
  rw [getArticlesToScore_eq]
  simp only []
  by_cases hlen : ((db.filter (isCandidate p)).map scanTen).length = 0
  · rw [if_pos hlen, ← hmap]
    have hnil := List.length_eq_zero.1 hlen
    rw [hnil]
    simp
  · rw [if_neg hlen]
    simp only [NewAIClient, hkey, if_false, htmpl]
    rw [scoreLoop_ok env tmpl _ db hwf, hmap]

/-- Claim C7. When `scoreArticles` returns, every row is what it was, except that a
candidate whose completion call succeeded with raw text `r` under the configured model `m`
has score = the score extracted from `r`, analysis = `r` and model = `m`; its guid, title,
link, description, content, published date, feed URL and reported flag are as before, and
rows that were no candidates are untouched. The store is taken with unique guids. -/
theorem scoreArticles_persists_triple (env : ScoreEnv) (db db1 : DB) (p : GoString)
    (showResponse : Bool) (tmpl : Template) (htmpl : promptTemplate env = .ok tmpl)
    (hnd : (guids db).Nodup)
    (hrun : scoreArticles env db p showResponse = (db1, .ok)) :
    db1 = db.map (scoredRow env tmpl p) ∧
    (∀ row ∈ db, isCandidate p row = true → ∀ r, responseText env tmpl (scanTen row) = some r →
      { row with Score := extractScore r, Analysis := r, Model := env.model } ∈ db1) ∧
    (∀ row ∈ db, isCandidate p row = false → row ∈ db1) := by
  have hmap : db.map (fun a => ((db.filter (isCandidate p)).map scanTen).foldl
      (rowStep env tmpl) a) = db.map (scoredRow env tmpl p) :=
    List.map_congr_left (fun a ha => rowFold_candidates env tmpl p db hnd a ha)
  have hdb : db1 = db.map (scoredRow env tmpl p) := by
    unfold scoreArticles at hrun
    rw [getArticlesToScore_eq] at hrun
    simp only [] at hrun
    by_cases hlen : ((db.filter (isCandidate p)).map scanTen).length = 0
    · rw [if_pos hlen] at hrun
      have hnil := List.length_eq_zero.1 hlen
      rw [← hmap, hnil]
      have : db1 = db := (Prod.mk.inj hrun).1.symm
      rw [this]
      simp
    · rw [if_neg hlen] at hrun
      cases hc : NewAIClient env with
      | error e => rw [hc] at hrun; cases hrun
      | ok u =>
        rw [hc] at hrun
        simp only [htmpl] at hrun
        have hwf := scoreLoop_wellFormed env tmpl _ db (by rw [hrun])
        rw [scoreLoop_ok env tmpl _ db hwf, hmap] at hrun
        exact (Prod.mk.inj hrun).1.symm
  refine ⟨hdb, ?_, ?_⟩
  · intro row hrow hc r hr
    rw [hdb]
    refine List.mem_map.2 ⟨row, hrow, ?_⟩
    simp only [scoredRow, hc, if_true, hr, withScore]
  · intro row hrow hc
    rw [hdb]
    refine List.mem_map.2 ⟨row, hrow, ?_⟩
    simp only [scoredRow, hc, if_false, Bool.false_eq_true]

/-- Witness for claim C7: two fresh rows, the service fails for the first and answers
`Score: 75` for the second. -/
theorem scoreArticles_persists_triple_witness :
    (scoreArticles failingEnv demoUnscored [] false).1 =
      demoUnscored.map (scoredRow failingEnv titleTemplate []) :=
  (scoreArticles_persists_triple failingEnv demoUnscored
    (scoreArticles failingEnv demoUnscored [] false).1 [] false titleTemplate rfl
    (by decide) (by decide)).1

/-- Claim C8. A candidate whose prompt rendering or completion call fails is skipped: its
row stays as it was, the loop does to the store exactly what it does when the failing
candidates are left out of the list, every other candidate is scored and updated, and
`scoreArticles` returns nil. Responses that come back without error are taken to carry a
choice, and the store to have unique guids. -/
theorem scoreArticles_isolates_failures (env : ScoreEnv) (db : DB) (p : GoString)
    (showResponse : Bool) (tmpl : Template) (hkey : env.api_key ≠ [])
    (htmpl : promptTemplate env = .ok tmpl) (hnd : (guids db).Nodup)
    (hwf : WellFormed env tmpl ((db.filter (isCandidate p)).map scanTen)) :
    scoreArticles env db p showResponse = (db.map (scoredRow env tmpl p), .ok) ∧
    (∀ row ∈ db, fails env tmpl (scanTen row) = true →
      row ∈ (scoreArticles env db p showResponse).1) ∧
    (∀ row ∈ db, isCandidate p row = true → ∀ r, responseText env tmpl (scanTen row) = some r →
      withScore env.model r row ∈ (scoreArticles env db p showResponse).1) ∧
    (∀ (cands : List Article) (d : DB), scoreLoop env tmpl cands d =
      scoreLoop env tmpl (cands.filter (fun a => !fails env tmpl a)) d) := by
  have hrun := scoreArticles_run env db p showResponse tmpl hkey htmpl hnd hwf
  refine ⟨hrun, ?_, ?_, scoreLoop_filter env tmpl⟩
  · intro row hrow hf
    rw [hrun]
    refine List.mem_map.2 ⟨row, hrow, ?_⟩
    have hnone : responseText env tmpl (scanTen row) = none := by
      simp only [fails, Option.isNone_iff_eq_none] at hf
      simp only [responseText, hf]
    unfold scoredRow
    split
    · simp only [hnone]
    · rfl
  · intro row hrow hc r hr
    rw [hrun]
    refine List.mem_map.2 ⟨row, hrow, ?_⟩
    simp only [scoredRow, hc, if_true, hr]

/-- Witness for claim C8: two fresh rows, the service fails for the first and answers
`Score: 75` for the second. -/
theorem scoreArticles_isolates_failures_witness :
    scoreArticles failingEnv demoUnscored [] false =
      (demoUnscored.map (scoredRow failingEnv titleTemplate []), .ok) :=
  (scoreArticles_isolates_failures failingEnv demoUnscored [] false titleTemplate
    (by decide) rfl (by decide)
    (by
      intro art _ resp hr
      simp only [callResult, titleTemplate, failingEnv] at hr
      by_cases hg : art.GUID = str "a"
      · simp only [hg, if_true] at hr
        cases hr
      · simp only [hg, if_false] at hr
        cases hr
        simp)).1

/-- Claim C9 against the code: a completion that returns without error and with an empty
list of choices makes `resp.Choices[0]` panic; the run ends there, and the second
candidate, for which the service has a proper answer, stays unscored. -/
theorem scoreArticles_empty_choices_panics :
    scoreArticles emptyChoicesEnv demoUnscored [] false =
      (demoUnscored, .panic "runtime error: index out of range [0] with length 0") := by
  decide

/-! ## Reporting -/

theorem markRow_nil (d : DB) : d.map (markRow []) = d := by
  have : markRow [] = id := by funext a; simp [markRow]
  rw [this, List.map_id]

theorem generateReport_ok (env : ReportEnv) (db db1 : DB)
    (h : generateReport env db = (db1, .ok)) :
    db1 = db.map (markRow (guids (selected env db))) := by
  unfold generateReport at h
  unfold selected
  cases hc : reportCandidates env db with
  | error e => simp only [hc] at h; cases h
  | ok articles =>
    simp only [hc] at h ⊢
    by_cases h0 : articles.length = 0
    · have hnil := List.length_eq_zero.1 h0
      subst hnil
      simp only [List.length_nil, if_true] at h
      have : validArticles env.reportThreshold [] = [] := rfl
      rw [this]
      simp only [guids, List.map_nil, markRow_nil]
      exact (Prod.mk.inj h).1.symm
    · simp only [h0, if_false] at h
      by_cases h1 : (validArticles env.reportThreshold articles).length = 0
      · simp only [h1, if_true] at h
        rw [List.length_eq_zero.1 h1]
        simp only [guids, List.map_nil, markRow_nil]
        exact (Prod.mk.inj h).1.symm
      · simp only [h1, if_false] at h
        split at h
        · cases h
        · split at h
          · cases h
          · split at h
            · cases h
            · have hlen : ¬ (List.map (fun art => art.GUID)
                  (validArticles env.reportThreshold articles)).length = 0 := by
                simpa using h1
              simp only [DB.MarkArticlesReported, hlen, if_false] at h
              have := (Prod.mk.inj h).1
              rw [← this]
              rfl

theorem mem_selected_unreported (env : ReportEnv) (db : DB) (h : env.reportAlways = false)
    (a : Article) :
    a ∈ selected env db ↔
      a ∈ db ∧ since env ≤ a.PublishedDate ∧ a.Reported = false ∧
        env.reportThreshold ≤ scoreOrZero a.Score := by
  simp only [selected, reportCandidates, h, DB.GetUnreportedArticlesAfter, validArticles_eq_filter,
    List.mem_filter, List.mem_insertionSort, Bool.and_eq_true, decide_eq_true_eq,
    Bool.not_eq_true', Bool.false_eq_true, if_false]
  tauto

/-- Claim C10. When `generateReport` with `always` off returns nil, the rows it selected
are exactly the rows whose `reported` flag is set by the run, every other row is as it was
(guids being unique), and a following run with `always` off, the same age and threshold,
the store as the first run left it and a clock that has not gone back selects nothing. -/
theorem generateReport_marks_selected (env env2 : ReportEnv) (db db1 : DB)
    (halways : env.reportAlways = false) (hrun : generateReport env db = (db1, .ok))
    (hnd : (guids db).Nodup) (halways2 : env2.reportAlways = false)
    (hage : env2.reportAge = env.reportAge)
    (hthr : env2.reportThreshold = env.reportThreshold) (hclock : env.Now ≤ env2.Now) :
    db1 = db.map (markRow (guids (selected env db))) ∧
    (∀ a ∈ selected env db, a ∈ db ∧ { a with Reported := true } ∈ db1) ∧
    (∀ a ∈ db, a ∉ selected env db → a ∈ db1) ∧
    selected env2 db1 = [] := by
  have hdb := generateReport_ok env db db1 hrun
  refine ⟨hdb, ?_, ?_, ?_⟩
  · intro a ha
    have hin := ((mem_selected_unreported env db halways a).1 ha).1
    refine ⟨hin, ?_⟩
    rw [hdb]
    refine List.mem_map.2 ⟨a, hin, ?_⟩
    have hg : a.GUID ∈ guids (selected env db) := List.mem_map.2 ⟨a, ha, rfl⟩
    simp only [markRow, hg, if_true]
  · intro a ha hns
    rw [hdb]
    refine List.mem_map.2 ⟨a, ha, ?_⟩
    have hg : a.GUID ∉ guids (selected env db) := by
      intro hc
      obtain ⟨b, hb, hbe⟩ := List.mem_map.1 hc
      have hbin := ((mem_selected_unreported env db halways b).1 hb).1
      have : b = a := List.inj_on_of_nodup_map hnd hbin ha hbe
      rw [this] at hb
      exact hns hb
    simp only [markRow, hg, if_false]
  · rw [List.eq_nil_iff_forall_not_mem]
    intro b hb
    obtain ⟨hb1, hb2, hb3, hb4⟩ := (mem_selected_unreported env2 db1 halways2 b).1 hb
    rw [hdb] at hb1
    obtain ⟨a, ha, hab⟩ := List.mem_map.1 hb1
    by_cases hg : a.GUID ∈ guids (selected env db)
    · simp only [markRow, hg, if_true] at hab
      rw [← hab] at hb3
      cases hb3
    · simp only [markRow, hg, if_false] at hab
      subst hab
      apply hg
      refine List.mem_map.2 ⟨a, ?_, rfl⟩
      refine (mem_selected_unreported env db halways a).2 ⟨ha, ?_, hb3, ?_⟩
      · have hs : since env ≤ since env2 := by
          simp only [since, hage]
          omega
        exact le_trans hs hb2
      · rw [← hthr]; exact hb4

/-- Witness for claim C10: a first run over the sample rows selects the row scored 75 and a
second run one nanosecond later selects nothing. -/
theorem generateReport_marks_selected_witness :
    selected { demoReportEnv with Now := demoReportEnv.Now + 1 }
      (generateReport demoReportEnv demoScored).1 = [] :=
  (generateReport_marks_selected demoReportEnv { demoReportEnv with Now := demoReportEnv.Now + 1 }
    demoScored (generateReport demoReportEnv demoScored).1 rfl (by decide) (by decide) rfl rfl
    rfl (by decide)).2.2.2

theorem selected_eq (env : ReportEnv) (db : DB) (articles : List Article)
    (h : reportCandidates env db = .ok articles) :
    selected env db = validArticles env.reportThreshold articles := by
  simp only [selected, h]

theorem reportCandidates_ok (env : ReportEnv) (db : DB) :
    ∃ articles, reportCandidates env db = .ok articles := by
  unfold reportCandidates
  split
  · exact ⟨_, rfl⟩
  · exact ⟨_, rfl⟩

theorem validArticles_nil_of_length (thr : Int) (articles : List Article)
    (h : articles.length = 0) : validArticles thr articles = [] := by
  rw [List.length_eq_zero.1 h]
  rfl

/-- Claim C11 fails on the code: with one article selected, the file written and the mail
transport failing, `generateReport` returns the send error and the selected row is still
unreported. -/
theorem generateReport_failed_email_counterexample :
    selected mailFailsEnv demoScored ≠ [] ∧
    (generateReport mailFailsEnv demoScored).2 =
      .error "error sending email: failed to send email: connection refused" ∧
    (∀ a ∈ (generateReport mailFailsEnv demoScored).1, a.Reported = false) := by
  decide

/-- Claim C11, amended. When at least one article is selected, mail is requested, the file
step succeeds or is skipped, and the mail step fails, `generateReport` returns the error of
the mail step and leaves the store as it was: no selected article is marked reported. -/
theorem generateReport_failed_email (env : ReportEnv) (db : DB) (e : String)
    (hsel : selected env db ≠ []) (hmail : env.reportSendEmail = true)
    (hfile : FileStepPasses env db)
    (hsend : GenerateEmail env (mailReport env db) env.email_to env.email_from
      env.email_smarthost env.email_identity env.email_username env.email_password =
        .error e) :
    generateReport env db = (db, .error ("error sending email: " ++ e)) := by
  obtain ⟨articles, hc⟩ := reportCandidates_ok env db
  have hs := selected_eq env db articles hc
  have hlen : ¬ articles.length = 0 := by
    intro h0
    exact hsel (by rw [hs, validArticles_nil_of_length _ _ h0])
  have hvlen : ¬ (validArticles env.reportThreshold articles).length = 0 := by
    rw [← hs]
    exact fun h0 => hsel (List.length_eq_zero.1 h0)
  have hfr : Report.mk (env.Sprintf env.reportAge env.reportThreshold)
      (validArticles env.reportThreshold articles) = fileReport env db := by
    simp only [fileReport, hs]
  have hmr : (if True ∧ env.email_subject ≠ [] then
      Report.mk env.email_subject (validArticles env.reportThreshold articles)
      else fileReport env db) = mailReport env db := by
    simp only [mailReport, fileReport, hs, true_and]
  have hstep : (if env.reportOut ≠ [] then GenerateFile env (fileReport env db) env.reportOut
      else .ok ()) = .ok () := by
    rcases hfile with h | h
    · simp only [h, ne_eq, not_true_eq_false, if_false]
    · by_cases ho : env.reportOut = []
      · simp only [ho, ne_eq, not_true_eq_false, if_false]
      · simp only [ne_eq, ho, not_false_eq_true, if_true, h]
  unfold generateReport
  simp only [hc, hlen, hvlen, if_false, hfr, hmail, Bool.not_true, Bool.false_and,
    Bool.false_eq_true, hstep, if_true]
  rw [hmr, hsend]

/-- Witness for claim C11: the sample rows with a mail transport that refuses. -/
theorem generateReport_failed_email_witness :
    generateReport mailFailsEnv demoScored =
      (demoScored, .error ("error sending email: " ++ "failed to send email: connection refused")) :=
  generateReport_failed_email mailFailsEnv demoScored "failed to send email: connection refused"
    (by decide) rfl (Or.inr (by decide)) (by decide)

/-- Claim C12 fails on the code: with neither an output file nor mail and nothing to
report, `generateReport` returns nil. -/
theorem generateReport_no_destination_counterexample :
    generateReport noDestinationEnv [] = ([], .ok) := by
  decide

/-- Claim C12, amended. With neither an output file nor mail requested, `generateReport`
leaves the store as it was, whatever the store, age and threshold; it returns the error
`must specify --out or --send-email` when at least one article is selected, and nil when
none is. -/
theorem generateReport_no_destination (env : ReportEnv) (db : DB)
    (hout : env.reportOut = []) (hmail : env.reportSendEmail = false) :
    (generateReport env db).1 = db ∧
    (selected env db ≠ [] →
      (generateReport env db).2 = .error "error: must specify --out or --send-email") ∧
    (selected env db = [] → (generateReport env db).2 = .ok) := by
  obtain ⟨articles, hc⟩ := reportCandidates_ok env db
  have hs := selected_eq env db articles hc
  by_cases h0 : articles.length = 0
  · have hnil : selected env db = [] := by rw [hs, validArticles_nil_of_length _ _ h0]
    have hrun : generateReport env db = (db, .ok) := by
      unfold generateReport
      simp only [hc, h0, if_true]
    rw [hrun]
    exact ⟨rfl, fun h => absurd hnil h, fun _ => rfl⟩
  · by_cases h1 : (validArticles env.reportThreshold articles).length = 0
    · have hnil : selected env db = [] := by rw [hs]; exact List.length_eq_zero.1 h1
      have hrun : generateReport env db = (db, .ok) := by
        unfold generateReport
        simp only [hc, h0, h1, if_true, if_false]
      rw [hrun]
      exact ⟨rfl, fun h => absurd hnil h, fun _ => rfl⟩
    · have hne : selected env db ≠ [] := by
        rw [hs]
        exact fun h => h1 (by rw [h]; rfl)
      have hrun : generateReport env db =
          (db, .error "error: must specify --out or --send-email") := by
        unfold generateReport
        simp only [hc, h0, h1, if_false, hout, hmail, Bool.not_false, beq_self_eq_true,
          Bool.and_self, if_true]
      rw [hrun]
      exact ⟨rfl, fun _ => rfl, fun h => absurd h hne⟩

/-- Witness for claim C12: the sample rows, of which one is selected, with no destination. -/
theorem generateReport_no_destination_witness :
    (generateReport noDestinationEnv demoScored).1 = demoScored ∧
    (selected noDestinationEnv demoScored ≠ [] →
      (generateReport noDestinationEnv demoScored).2 =
        .error "error: must specify --out or --send-email") ∧
    (selected noDestinationEnv demoScored = [] →
      (generateReport noDestinationEnv demoScored).2 = .ok) :=
  generateReport_no_destination noDestinationEnv demoScored rfl rfl

theorem filter_sublist_of_imp (p q : Article → Bool) (l : List Article)
    (h : ∀ a, p a = true → q a = true) : (l.filter p).Sublist (l.filter q) := by
  induction l with
  | nil => exact List.Sublist.slnil
  | cons a l ih =>
    by_cases hp : p a = true
    · have hq := h a hp
      rw [List.filter_cons_of_pos hp, List.filter_cons_of_pos hq]
      exact List.Sublist.cons₂ a ih
    · rw [List.filter_cons_of_neg hp]
      by_cases hq : q a = true
      · rw [List.filter_cons_of_pos hq]
        exact List.Sublist.cons a ih
      · rw [List.filter_cons_of_neg hq]
        exact ih

theorem validArticles_sublist (articles : List Article) (T1 T2 : Int) (h : T1 ≤ T2) :
    (validArticles T2 articles).Sublist (validArticles T1 articles) := by
  rw [validArticles_eq_filter, validArticles_eq_filter]
  apply filter_sublist_of_imp
  intro a ha
  simp only [decide_eq_true_eq] at ha ⊢
  omega

/-- Claim C13. Selection is antitone in the threshold: for thresholds `T1 ≤ T2` the
articles selected at `T2` are among those selected at `T1`, in the same order, both for the
filter loop over a fixed candidate list and for a whole run with the age and reported
filters fixed; in particular those selected at `T + 1` are among those selected at `T`. -/
theorem validArticles_antitone (articles : List Article) :
    (∀ T1 T2 : Int, T1 ≤ T2 →
      (validArticles T2 articles).Sublist (validArticles T1 articles) ∧
      (∀ a ∈ validArticles T2 articles, a ∈ validArticles T1 articles) ∧
      (∀ (env : ReportEnv) (db : DB),
        (selected { env with reportThreshold := T2 } db).Sublist
          (selected { env with reportThreshold := T1 } db))) ∧
    (∀ T : Int, ∀ a ∈ validArticles (T + 1) articles, a ∈ validArticles T articles) := by
  refine ⟨?_, ?_⟩
  · intro T1 T2 h
    refine ⟨validArticles_sublist articles T1 T2 h,
      fun a ha => (validArticles_sublist articles T1 T2 h).subset ha, ?_⟩
    intro env db
    obtain ⟨arts, hc⟩ := reportCandidates_ok env db
    have h1 : reportCandidates { env with reportThreshold := T1 } db = .ok arts := hc
    have h2 : reportCandidates { env with reportThreshold := T2 } db = .ok arts := hc
    rw [selected_eq _ db arts h1, selected_eq _ db arts h2]
    exact validArticles_sublist arts T1 T2 h
  · intro T a ha
    exact (validArticles_sublist articles T (T + 1) (by omega)).subset ha

/-- Witness for claim C13: the sample rows at thresholds 50 and 70. -/
theorem validArticles_antitone_witness :
    (validArticles 70 demoScored).Sublist (validArticles 50 demoScored) :=
  ((validArticles_antitone demoScored).1 50 70 (by decide)).1

/-! ## Marking and resetting -/

theorem orderedInsert_of_forall (a : Article) (l : List Article)
    (h : ∀ b ∈ l, newerFirst a b) : l.orderedInsert newerFirst a = a :: l := by
  cases l with
  | nil => rfl
  | cons b l =>
    have hab := h b (List.mem_cons_self _ _)
    simp only [List.orderedInsert, hab, if_true]

theorem filter_orderedInsert (p : Article → Bool) (a : Article) (l : List Article)
    (hs : l.Sorted newerFirst) :
    (l.orderedInsert newerFirst a).filter p =
      if p a = true then (l.filter p).orderedInsert newerFirst a else l.filter p := by
  induction l with
  | nil =>
    by_cases hp : p a = true <;> simp [List.orderedInsert, hp]
  | cons b l ih =>
    have hsl : l.Sorted newerFirst := hs.of_cons
    have hb : ∀ c ∈ l, newerFirst b c := fun c hc => List.rel_of_sorted_cons hs c hc
    by_cases hab : newerFirst a b
    · have hall : ∀ c ∈ (b :: l).filter p, newerFirst a c := by
        intro c hc
        rcases List.mem_cons.1 (List.mem_filter.1 hc).1 with rfl | hcl
        · exact hab
        · exact Int.le_trans (hb c hcl) hab
      have hins : (b :: l).orderedInsert newerFirst a = a :: b :: l := by
        simp only [List.orderedInsert, hab, if_true]
      rw [hins]
      by_cases hp : p a = true
      · rw [if_pos hp, orderedInsert_of_forall a _ hall, List.filter_cons_of_pos hp]
      · rw [if_neg hp, List.filter_cons_of_neg hp]
    · have hins : (b :: l).orderedInsert newerFirst a = b :: l.orderedInsert newerFirst a := by
        simp only [List.orderedInsert, hab, if_false]
      rw [hins]
      by_cases hpb : p b = true
      · rw [List.filter_cons_of_pos hpb, List.filter_cons_of_pos hpb, ih hsl]
        by_cases hp : p a = true
        · simp only [hp, if_true, List.orderedInsert, hab, if_false]
        · rw [if_neg hp, if_neg hp]
      · rw [List.filter_cons_of_neg hpb, List.filter_cons_of_neg hpb, ih hsl]

theorem insertionSort_filter (p : Article → Bool) (l : List Article) :
    (l.filter p).insertionSort newerFirst = (l.insertionSort newerFirst).filter p := by
  induction l with
  | nil => rfl
  | cons a l ih =>
    rw [List.insertionSort_cons_eq_take_drop]
    rw [← List.orderedInsert_eq_take_drop]
    rw [filter_orderedInsert p a _ (List.sorted_insertionSort newerFirst l)]
    by_cases hp : p a = true
    · rw [List.filter_cons_of_pos hp, if_pos hp, ← ih]
      rfl
    · rw [List.filter_cons_of_neg hp, if_neg hp, ih]

theorem markArticlesReported_eq (db : DB) (ids : List GoString) :
    DB.MarkArticlesReported db ids = .ok (db.map (markRow ids)) := by
  by_cases h : ids.length = 0
  · rw [List.length_eq_zero.1 h, markRow_nil]
    rfl
  · simp only [DB.MarkArticlesReported, h, if_false]
    rfl

theorem filter_unreported_marked (db : DB) (t : Int) (ids : List GoString) :
    (db.map (markRow ids)).filter (fun a => decide (t ≤ a.PublishedDate) && !a.Reported) =
      (db.filter (fun a => decide (t ≤ a.PublishedDate) && !a.Reported)).filter
        (fun a => decide (a.GUID ∉ ids)) := by
  induction db with
  | nil => rfl
  | cons a l ih =>
    by_cases hg : a.GUID ∈ ids
    · have hm : markRow ids a = { a with Reported := true } := by simp only [markRow, hg, if_true]
      rw [List.map_cons, hm]
      by_cases hc : (decide (t ≤ a.PublishedDate) && !a.Reported) = true
      · simp [List.filter_cons, hc, hg, ih]
      · simp [List.filter_cons, hc, ih]
    · have hm : markRow ids a = a := by simp only [markRow, hg, if_false]
      rw [List.map_cons, hm]
      by_cases hc : (decide (t ≤ a.PublishedDate) && !a.Reported) = true
      · simp [List.filter_cons, hc, hg, ih]
      · simp [List.filter_cons, hc, ih]

theorem map_markRow_of_absent (db : DB) (ids : List GoString)
    (h : ∀ g ∈ ids, g ∉ guids db) : db.map (markRow ids) = db := by
  have : ∀ a ∈ db, markRow ids a = a := by
    intro a ha
    have hg : a.GUID ∉ ids := fun hc => h _ hc (List.mem_map.2 ⟨a, ha, rfl⟩)
    simp only [markRow, hg, if_false]
  rw [List.map_congr_left this, List.map_id']

/-- Claim C14. After `MarkArticlesReported(ids)` the result of
`GetUnreportedArticlesAfter(t)` is its result before the call with exactly the rows whose
guid is in `ids` taken out: the remaining rows are the same and in the same order, newest
first, each published at `t` or later; ids that name no row change nothing. -/
theorem getUnreported_after_mark (db : DB) (t : Int) (ids : List GoString) :
    ∃ (d1 : DB) (before after : List Article),
      DB.MarkArticlesReported db ids = .ok d1 ∧
      DB.GetUnreportedArticlesAfter db t = .ok before ∧
      DB.GetUnreportedArticlesAfter d1 t = .ok after ∧
      after = before.filter (fun a => decide (a.GUID ∉ ids)) ∧
      after.Sorted newerFirst ∧
      (∀ a ∈ after, t ≤ a.PublishedDate ∧ a.Reported = false) ∧
      ((∀ g ∈ ids, g ∉ guids db) → d1 = db ∧ after = before) := by
  refine ⟨db.map (markRow ids), _, _, markArticlesReported_eq db ids, rfl, rfl, ?_, ?_, ?_, ?_⟩
  · rw [filter_unreported_marked, insertionSort_filter]
  · exact List.sorted_insertionSort newerFirst _
  · intro a ha
    have := (List.mem_filter.1 ((List.mem_insertionSort newerFirst).1 ha)).2
    simpa using this
  · intro h
    have hd := map_markRow_of_absent db ids h
    exact ⟨hd, by rw [hd]⟩

/-- Witness for claim C14: an id that names no row of the sample store. -/
theorem getUnreported_after_mark_witness :
    ∃ (d1 : DB) (before after : List Article),
      DB.MarkArticlesReported demoScored [str "zzz"] = .ok d1 ∧
      DB.GetUnreportedArticlesAfter demoScored 0 = .ok before ∧
      DB.GetUnreportedArticlesAfter d1 0 = .ok after ∧
      d1 = demoScored ∧ after = before := by
  obtain ⟨d1, before, after, h1, h2, h3, _, _, _, h7⟩ :=
    getUnreported_after_mark demoScored 0 [str "zzz"]
  exact ⟨d1, before, after, h1, h2, h3, h7 (by decide)⟩

theorem sqlLike_percent (u : GoString) : sqlLike [37] u = true := by
  simp only [sqlLike, sqlLikeAll, if_true]

theorem sqlLike_literal (lit u : GoString) (h : ∀ b ∈ lit, b ≠ 37 ∧ b ≠ 95) :
    sqlLike (lit ++ [37]) u = (lit.map asciiLower).isPrefixOf (u.map asciiLower) := by
  induction lit generalizing u with
  | nil => simp [sqlLike_percent]
  | cons p ps ih =>
    have hp := h p (List.mem_cons_self _ _)
    have ih1 := fun v => ih v (fun b hb => h b (List.mem_cons_of_mem _ hb))
    cases u with
    | nil => simp [sqlLike, hp.1, hp.2]
    | cons c cs => simp [sqlLike, hp.1, hp.2, ih1 cs, List.isPrefixOf]

theorem sqlLikeAll_literal (lit t : GoString) (h : ∀ b ∈ lit, b ≠ 37 ∧ b ≠ 95) :
    sqlLikeAll (lit ++ [37]) t = containsFold lit t := by
  cases lit with
  | nil =>
    cases t <;> simp [sqlLikeAll, containsFold, List.tails]
  | cons p ps =>
    have hp := h p (List.mem_cons_self _ _)
    have hps : ∀ b ∈ ps, b ≠ 37 ∧ b ≠ 95 := fun b hb => h b (List.mem_cons_of_mem _ hb)
    simp only [List.cons_append, sqlLikeAll, hp.1, hp.2, if_false, containsFold]
    congr 1
    funext u
    cases u with
    | nil => simp [List.isPrefixOf]
    | cons c cs => simp [sqlLike_literal ps cs hps, List.isPrefixOf]

theorem globToLike_plain (lit : GoString) (h : PlainLiteral lit) : globToLike lit = lit := by
  induction lit with
  | nil => rfl
  | cons b l ih =>
    have hb := h b (List.mem_cons_self _ _)
    have hl : globToLike l = l := ih (fun c hc => h c (List.mem_cons_of_mem _ hc))
    simp only [globToLike, List.map_cons, List.map_map] at hl ⊢
    rw [hl]
    simp [hb.1, hb.2.1]

theorem sqlLike_contains (lit t : GoString) (h : PlainLiteral lit) :
    sqlLike (globToLike (42 :: lit ++ [42])) t = containsFold lit t := by
  have hg : globToLike (42 :: lit ++ [42]) = 37 :: (lit ++ [37]) := by
    have h1 : globToLike (42 :: lit ++ [42]) = 37 :: (globToLike lit ++ [37]) := by
      simp [globToLike]
    rw [h1, globToLike_plain lit h]
  rw [hg]
  simp only [sqlLike, if_true]
  exact sqlLikeAll_literal lit t (fun b hb => ⟨(h b hb).2.2.1, (h b hb).2.2.2⟩)

/-- Claim C15 fails on the code: in a store with an unreported row titled `Foo bar` and a
reported row titled `food court`, no previously reported row has a title that contains
`Foo`, yet `ResetReported("*Foo*")` returns 2: the count takes in rows that were not
reported, and LIKE ignores the case of ASCII letters. -/
theorem resetReported_count_counterexample :
    (DB.ResetReported fooStore (str "*Foo*")).map Prod.snd = .ok 2 ∧
    (fooStore.filter (fun a => a.Reported && containsSub (str "Foo") a.Title)).length = 0 := by
  decide

/-- Claim C15, amended. For a literal such as `Foo`, `ResetReported("*Foo*")` returns the
number of rows, reported or not, whose title contains the literal up to the case of ASCII
letters; afterwards each of those rows has `reported = false` and so is returned by
`GetUnreportedArticlesAfter` for every instant up to its published date, and the rows whose
title does not contain the literal in that sense are as they were. -/
theorem resetReported_contains (db : DB) (lit : GoString) (hlit : PlainLiteral lit) :
    DB.ResetReported db (42 :: lit ++ [42]) =
      .ok (db.map (resetRow lit), (db.filter (fun a => containsFold lit a.Title)).length) ∧
    (∀ a ∈ db, containsFold lit a.Title = true → { a with Reported := false } ∈
      db.map (resetRow lit)) ∧
    (∀ a ∈ db.map (resetRow lit), containsFold lit a.Title = true → a.Reported = false ∧
      ∀ t : Int, t ≤ a.PublishedDate →
        ∃ l, DB.GetUnreportedArticlesAfter (db.map (resetRow lit)) t = .ok l ∧ a ∈ l) ∧
    (∀ a ∈ db, containsFold lit a.Title = false → a ∈ db.map (resetRow lit)) := by
  have hfun : (fun a : Article => sqlLike (globToLike (42 :: lit ++ [42])) a.Title) =
      fun a => containsFold lit a.Title :=
    funext (fun a => sqlLike_contains lit a.Title hlit)
  refine ⟨?_, ?_, ?_, ?_⟩
  · have hmap : (fun a : Article =>
        if sqlLike (globToLike (42 :: lit ++ [42])) a.Title = true then
          { a with Reported := false } else a) = resetRow lit := by
      funext a
      simp only [resetRow, sqlLike_contains lit a.Title hlit]
    simp only [DB.ResetReported, hfun, hmap]
  · intro a ha hc
    refine List.mem_map.2 ⟨a, ha, ?_⟩
    simp only [resetRow, hc, if_true]
  · intro a ha hc
    obtain ⟨a0, ha0, rfl⟩ := List.mem_map.1 ha
    have hrep : (resetRow lit a0).Reported = false := by
      by_cases h0 : containsFold lit a0.Title = true
      · simp only [resetRow, h0, if_true]
      · have : resetRow lit a0 = a0 := by simp only [resetRow, h0, if_false, Bool.false_eq_true]
        rw [this] at hc
        exact absurd hc h0
    refine ⟨hrep, fun t ht => ⟨_, rfl, ?_⟩⟩
    rw [List.mem_insertionSort, List.mem_filter]
    exact ⟨ha, by simp [ht, hrep]⟩
  · intro a ha hc
    refine List.mem_map.2 ⟨a, ha, ?_⟩
    simp only [resetRow, hc, if_false, Bool.false_eq_true]

/-- Witness for claim C15: the literal `Foo` on the sample store. -/
theorem resetReported_contains_witness :
    DB.ResetReported fooStore (42 :: str "Foo" ++ [42]) =
      .ok (fooStore.map (resetRow (str "Foo")),
        (fooStore.filter (fun a => containsFold (str "Foo") a.Title)).length) :=
  (resetReported_contains fooStore (str "Foo") (by unfold PlainLiteral; decide)).1

/-- Claim C16 fails on the code: `UpdateArticleScore` for a guid that names no row of the
sample store returns nil. -/
theorem updateArticleScore_missing_counterexample :
    DB.UpdateArticleScore demoScored (str "missing") (str "90") (str "Score: 90") (str "m") =
      .ok demoScored := by
  decide

/-- Claim C16, amended. `UpdateArticleScore` always returns nil: for a guid that names no
row it leaves the store as it was, and for a guid that names a row it overwrites that
row's score, analysis and model, whatever they were, and nothing else. -/
theorem updateArticleScore_overwrites (d : DB) (guid score analysis model : GoString) :
    DB.UpdateArticleScore d guid score analysis model =
      .ok (d.map (fun a => if a.GUID = guid then
        { a with Score := score, Analysis := analysis, Model := model } else a)) ∧
    (guid ∉ guids d → DB.UpdateArticleScore d guid score analysis model = .ok d) ∧
    (∀ a ∈ d, a.GUID = guid → ∃ d1, DB.UpdateArticleScore d guid score analysis model = .ok d1 ∧
      { a with Score := score, Analysis := analysis, Model := model } ∈ d1) ∧
    (∀ a ∈ d, a.GUID ≠ guid → ∃ d1, DB.UpdateArticleScore d guid score analysis model = .ok d1 ∧
      a ∈ d1) := by
  refine ⟨rfl, ?_, ?_, ?_⟩
  · intro h
    have : ∀ a ∈ d, (if a.GUID = guid then
        { a with Score := score, Analysis := analysis, Model := model } else a) = a := by
      intro a ha
      have hg : a.GUID ≠ guid := fun e => h (e ▸ List.mem_map.2 ⟨a, ha, rfl⟩)
      simp only [hg, if_false]
    simp only [DB.UpdateArticleScore, List.map_congr_left this, List.map_id']
  · intro a ha hg
    refine ⟨_, rfl, List.mem_map.2 ⟨a, ha, ?_⟩⟩
    simp only [hg, if_true]
  · intro a ha hg
    refine ⟨_, rfl, List.mem_map.2 ⟨a, ha, ?_⟩⟩
    simp only [hg, if_false]

/-- Witness for claim C16: overwriting the triple of the first row of the sample store. -/
theorem updateArticleScore_overwrites_witness :
    ∃ d1, DB.UpdateArticleScore demoScored (str "a") (str "90") (str "Score: 90") (str "m2") =
        .ok d1 ∧
      { scoredRowA with Score := str "90", Analysis := str "Score: 90", Model := str "m2" } ∈ d1 :=
  (updateArticleScore_overwrites demoScored (str "a") (str "90") (str "Score: 90")
    (str "m2")).2.2.1 scoredRowA (by decide) (by decide)

/-! ## The shape of scores -/

theorem scoreRegexAt_digits (u d : GoString) (h : scoreRegexAt u = some d) :
    d ≠ [] ∧ ∀ b ∈ d, isDigit b = true := by
  unfold scoreRegexAt at h
  split at h
  · simp only at h
    split at h
    · cases h
    · rename_i r _ hne
      cases h
      refine ⟨fun hc => hne (by rw [hc]; rfl), fun b hb => List.mem_takeWhile_imp hb⟩
  · cases h

theorem scoreRegexFind_digits (t d : GoString) (h : scoreRegexFind t = some d) :
    d ≠ [] ∧ ∀ b ∈ d, isDigit b = true := by
  induction t with
  | nil => cases h
  | cons c cs ih =>
    simp only [scoreRegexFind] at h
    cases hc : scoreRegexAt (c :: cs) with
    | some d1 =>
      rw [hc] at h
      cases h
      exact scoreRegexAt_digits _ _ hc
    | none =>
      rw [hc] at h
      exact ih h

theorem fallbackFind_digits (t d : GoString) (h : fallbackFind t = some d) :
    d ≠ [] ∧ ∀ b ∈ d, isDigit b = true := by
  unfold fallbackFind at h
  simp only at h
  split at h
  · cases h
  · rename_i hne
    cases h
    exact ⟨fun hc => hne (by rw [hc]; rfl), fun b hb => List.mem_takeWhile_imp hb⟩

theorem fallbackFind_some_of_digit (t : GoString) (b : UInt8) (hb : b ∈ t)
    (hd : isDigit b = true) : ∃ d, fallbackFind t = some d := by
  cases hr : t.dropWhile (fun c => !isDigit c) with
  | nil =>
    rw [List.dropWhile_eq_nil_iff] at hr
    have := hr b hb
    simp [hd] at this
  | cons c cs =>
    have hc : isDigit c = true := by
      have := List.head_dropWhile_not (fun c => !isDigit c) t (by rw [hr]; simp)
      simpa [hr] using this
    refine ⟨c :: cs.takeWhile isDigit, ?_⟩
    simp [fallbackFind, hr, List.takeWhile, hc]

theorem na_not_digits : ¬ (∀ b ∈ str "N/A", isDigit b = true) := by decide

/-- Claim C19. Score extraction is a total function of the text, and its result is either
exactly `N/A` or a non-empty string of the decimal digits 0-9; it is `N/A` exactly when the
text has no decimal digit. -/
theorem extractScore_shape (t : GoString) :
    (extractScore t = str "N/A" ∨
      (extractScore t ≠ [] ∧ ∀ b ∈ extractScore t, isDigit b = true)) ∧
    (extractScore t = str "N/A" ↔ ∀ b ∈ t, isDigit b = false) := by
  have hshape : extractScore t = str "N/A" ∨
      (extractScore t ≠ [] ∧ ∀ b ∈ extractScore t, isDigit b = true) := by
    unfold extractScore
    cases h1 : scoreRegexFind t with
    | some d => exact Or.inr (scoreRegexFind_digits t d h1)
    | none =>
      cases h2 : fallbackFind t with
      | some d => exact Or.inr (fallbackFind_digits t d h2)
      | none => exact Or.inl rfl
  refine ⟨hshape, ?_, ?_⟩
  · intro hna b hb
    cases hd : isDigit b with
    | false => rfl
    | true =>
      exfalso
      obtain ⟨d, hf⟩ := fallbackFind_some_of_digit t b hb hd
      have hdig : ∀ c ∈ extractScore t, isDigit c = true := by
        unfold extractScore
        cases h1 : scoreRegexFind t with
        | some d1 => exact (scoreRegexFind_digits t d1 h1).2
        | none =>
          simp only [hf]
          exact (fallbackFind_digits t d hf).2
      rw [hna] at hdig
      exact na_not_digits hdig
  · intro h
    simp only [extractScore, scoreRegexFind_none_of_no_digit t h, fallbackFind_none t h]

theorem fetchLoop_added (env : FetchEnv) (url : GoString) (items : List Item)
    (st : FetchState) :
    ∃ added : List Article, (items.foldl (fetchItem env url) st).db = st.db ++ added ∧
      ∀ r ∈ added, ∃ item ∈ items, r = newArticle env url item := by
  induction items generalizing st with
  | nil => exact ⟨[], by simp, by simp⟩
  | cons it rest ih =>
    obtain ⟨added, he, hnew⟩ := ih (fetchItem env url st it)
    rw [List.foldl_cons, he]
    rw [fetchItem_eq]
    by_cases hk : effectiveGUID it ∈ guids st.db
    · simp only [hk, if_true]
      exact ⟨added, rfl, fun r hr => by
        obtain ⟨item, hi, hr2⟩ := hnew r hr
        exact ⟨item, List.mem_cons_of_mem _ hi, hr2⟩⟩
    · simp only [hk, if_false]
      refine ⟨newArticle env url it :: added, by simp, ?_⟩
      intro r hr
      rcases List.mem_cons.1 hr with rfl | hr
      · exact ⟨it, List.mem_cons_self _ _, rfl⟩
      · obtain ⟨item, hi, hr2⟩ := hnew r hr
        exact ⟨item, List.mem_cons_of_mem _ hi, hr2⟩

theorem fetchAndSave_added (env : FetchEnv) (db : DB) (url : GoString) :
    ∃ added : List Article, (fetchAndSave env db url).1 = db ++ added ∧
      ∀ r ∈ added, ∃ item, r = newArticle env url item := by
  cases hf : env.FetchFeed url with
  | error e =>
    simp only [fetchAndSave, hf]
    exact ⟨[], by simp, by simp⟩
  | ok items =>
    obtain ⟨added, he, hnew⟩ :=
      fetchLoop_added env url items { db := db, existing := 0, added := 0 }
    simp only [fetchAndSave, hf, he]
    exact ⟨added, rfl, fun r hr => by
      obtain ⟨item, _, hr2⟩ := hnew r hr
      exact ⟨item, hr2⟩⟩

theorem scoreLoop_rows (env : ScoreEnv) (tmpl : Template) (cands : List Article) (db : DB)
    (P : Article → Prop) (hP : ∀ a m r, P a → P (withScore m r a)) (hdb : ∀ a ∈ db, P a) :
    ∀ a ∈ (scoreLoop env tmpl cands db).1, P a := by
  induction cands generalizing db with
  | nil => exact hdb
  | cons art rest ih =>
    rw [scoreLoop_cons]
    cases hc : callResult env tmpl art with
    | none => exact ih db hdb
    | some resp =>
      simp only []
      cases hch : resp.Choices with
      | nil => exact hdb
      | cons choice more =>
        simp only []
        apply ih
        intro a ha
        obtain ⟨a0, ha0, rfl⟩ := List.mem_map.1 ha
        by_cases hg : a0.GUID = art.GUID
        · simp only [hg, if_true]
          exact hP _ _ _ (hdb a0 ha0)
        · simp only [hg, if_false]
          exact hdb a0 ha0

theorem scoreLoop_flags (env : ScoreEnv) (tmpl : Template) (cands : List Article) (db : DB) :
    flags (scoreLoop env tmpl cands db).1 = flags db := by
  induction cands generalizing db with
  | nil => rfl
  | cons art rest ih =>
    rw [scoreLoop_cons]
    cases hc : callResult env tmpl art with
    | none => exact ih db
    | some resp =>
      simp only []
      cases hch : resp.Choices with
      | nil => rfl
      | cons choice more =>
        simp only []
        rw [ih]
        simp only [flags, List.map_map]
        apply List.map_congr_left
        intro a _
        by_cases hg : a.GUID = art.GUID
        · simp only [Function.comp, hg, if_true, withScore]
        · simp only [Function.comp, hg, if_false]

theorem scoreArticles_cases (env : ScoreEnv) (db : DB) (p : GoString) (showResponse : Bool) :
    (scoreArticles env db p showResponse).1 = db ∨
      ∃ tmpl cands, (scoreArticles env db p showResponse).1 = (scoreLoop env tmpl cands db).1 := by
  unfold scoreArticles
  rw [getArticlesToScore_eq]
  simp only []
  split
  · exact Or.inl rfl
  · cases NewAIClient env with
    | error e => exact Or.inl rfl
    | ok u =>
      cases promptTemplate env with
      | error e => exact Or.inl rfl
      | ok tmpl => exact Or.inr ⟨tmpl, _, rfl⟩

theorem scoreShape_withScore (a : Article) (m r : GoString) (_h : ScoreShape a.Score) :
    ScoreShape (withScore m r a).Score := by
  rcases (extractScore_shape r).1 with h | h
  · exact Or.inr (Or.inl h)
  · exact Or.inr (Or.inr h)

/-- Claim C17. In every store that arises from the empty store by fetching, scoring (with
arbitrary model responses, and however the run ends) and clearing of scores, the score of
every row is empty, or `N/A`, or a non-empty string of decimal digits. -/
theorem reachable_scoreShape (db : DB) (h : Reachable db) : ∀ a ∈ db, ScoreShape a.Score := by
  induction h with
  | empty => intro a ha; cases ha
  | fetch env url _ ih =>
    rename_i db0 _
    obtain ⟨added, he, hnew⟩ := fetchAndSave_added env db0 url
    rw [he]
    intro a ha
    rcases List.mem_append.1 ha with h1 | h1
    · exact ih a h1
    · obtain ⟨item, rfl⟩ := hnew a h1
      exact Or.inl rfl
  | score env p showResponse _ ih =>
    rename_i db0 _
    rcases scoreArticles_cases env db0 p showResponse with h1 | ⟨tmpl, cands, h1⟩
    · rw [h1]; exact ih
    · rw [h1]
      exact scoreLoop_rows env tmpl cands db0 (fun a => ScoreShape a.Score)
        (fun a m r ha => scoreShape_withScore a m r ha) ih
  | clear ids _ hc ih =>
    rename_i db0 d1 _
    unfold DB.ClearScores at hc
    split at hc
    · cases hc; exact ih
    · cases hc
      intro a ha
      obtain ⟨a0, ha0, rfl⟩ := List.mem_map.1 ha
      by_cases hg : a0.GUID ∈ ids
      · simp only [hg, if_true]; exact Or.inl rfl
      · simp only [hg, if_false]; exact ih a0 ha0

/-- Witness for claim C17: the sample feed fetched into the empty store and then scored;
the second row carries the score `75`. -/
theorem reachable_scoreShape_witness : ScoreShape (str "75") :=
  reachable_scoreShape
    (scoreArticles failingEnv (fetchAndSave demoFetchEnv [] (str "u")).1 [] false).1
    (Reachable.score failingEnv [] false (Reachable.fetch demoFetchEnv (str "u") Reachable.empty))
    fetchedScoredRow (by decide)

theorem forall₂_map_of (R : Article → Article → Prop) (f : Article → Article) (d : DB)
    (h : ∀ a ∈ d, R a (f a)) : List.Forall₂ R d (d.map f) := by
  rw [List.forall₂_map_right_iff, List.forall₂_same]
  exact h

/-- Claim C18. `fetchAndSave` appends rows with `reported = false` and leaves the rows it
found as they were; `UpdateArticleScore`, `scoreArticles` and `ClearScores` leave the guid
and the reported flag of every row as they were; `MarkArticlesReported` never turns a flag
from true to false; `ResetReported` and `ResetReportedArticles` never turn a flag from
false to true. -/
theorem reported_transitions :
    (∀ (env : FetchEnv) (db : DB) (url : GoString), ∃ added : List Article,
      (fetchAndSave env db url).1 = db ++ added ∧ ∀ r ∈ added, r.Reported = false) ∧
    (∀ (d d1 : DB) (guid score analysis model : GoString),
      DB.UpdateArticleScore d guid score analysis model = .ok d1 → flags d1 = flags d) ∧
    (∀ (env : ScoreEnv) (db : DB) (p : GoString) (showResponse : Bool),
      flags (scoreArticles env db p showResponse).1 = flags db) ∧
    (∀ (d d1 : DB) (ids : List GoString), DB.ClearScores d ids = .ok d1 → flags d1 = flags d) ∧
    (∀ (d d1 : DB) (ids : List GoString), DB.MarkArticlesReported d ids = .ok d1 →
      List.Forall₂ KeepsReported d d1) ∧
    (∀ (d d1 : DB) (pattern : GoString) (n : Nat), DB.ResetReported d pattern = .ok (d1, n) →
      List.Forall₂ KeepsUnreported d d1) ∧
    (∀ (d d1 : DB) (ids : List GoString), DB.ResetReportedArticles d ids = .ok d1 →
      List.Forall₂ KeepsUnreported d d1) := by
  refine ⟨?_, ?_, ?_, ?_, ?_, ?_, ?_⟩
  · intro env db url
    obtain ⟨added, he, hnew⟩ := fetchAndSave_added env db url
    exact ⟨added, he, fun r hr => by obtain ⟨item, rfl⟩ := hnew r hr; rfl⟩
  · intro d d1 guid score analysis model h
    simp only [DB.UpdateArticleScore, Except.ok.injEq] at h
    subst h
    simp only [flags, List.map_map]
    apply List.map_congr_left
    intro a _
    by_cases hg : a.GUID = guid
    · simp only [Function.comp, hg, if_true]
    · simp only [Function.comp, hg, if_false]
  · intro env db p showResponse
    rcases scoreArticles_cases env db p showResponse with h1 | ⟨tmpl, cands, h1⟩
    · rw [h1]
    · rw [h1]; exact scoreLoop_flags env tmpl cands db
  · intro d d1 ids h
    unfold DB.ClearScores at h
    split at h
    · cases h; rfl
    · cases h
      simp only [flags, List.map_map]
      apply List.map_congr_left
      intro a _
      by_cases hg : a.GUID ∈ ids
      · simp only [Function.comp, hg, if_true]
      · simp only [Function.comp, hg, if_false]
  · intro d d1 ids h
    rw [markArticlesReported_eq] at h
    cases h
    apply forall₂_map_of
    intro a _
    by_cases hg : a.GUID ∈ ids
    · simp only [KeepsReported, markRow, hg, if_true, implies_true, and_self]
    · simp only [KeepsReported, markRow, hg, if_false, imp_self, and_self]
  · intro d d1 pattern n h
    simp only [DB.ResetReported, Except.ok.injEq, Prod.mk.injEq] at h
    obtain ⟨h1, _⟩ := h
    subst h1
    apply forall₂_map_of
    intro a _
    by_cases hg : sqlLike (globToLike pattern) a.Title = true
    · simp only [KeepsUnreported, hg, if_true, implies_true, and_self]
    · simp only [KeepsUnreported, hg, if_false, imp_self, and_self, Bool.false_eq_true]
  · intro d d1 ids h
    unfold DB.ResetReportedArticles at h
    split at h
    · cases h
      rw [List.forall₂_same]
      exact fun a _ => ⟨rfl, fun h => h⟩
    · cases h
      apply forall₂_map_of
      intro a _
      by_cases hg : a.GUID ∈ ids
      · simp only [KeepsUnreported, hg, if_true, implies_true, and_self]
      · simp only [KeepsUnreported, hg, if_false, imp_self, and_self]

/-- Witness for claim C18: marking the first row of the sample store. -/
theorem reported_transitions_witness :
    List.Forall₂ KeepsReported demoScored (demoScored.map (markRow [str "a"])) :=
  reported_transitions.2.2.2.2.1 demoScored (demoScored.map (markRow [str "a"])) [str "a"]
    (markArticlesReported_eq demoScored [str "a"])

theorem trimString_initial (s : GoString) (max : Nat) : TrimString s max <+: s := by
  unfold TrimString
  split
  · exact List.take_prefix max s
  · exact List.prefix_refl s

theorem runeCount_le (s : GoString) : runeCount s ≤ s.length :=
  List.length_filter_le _ s

/-- Claim C20. `TrimString(s, max)` is `s` when `len(s) <= max` and the first `max` bytes of
`s` otherwise. The content that `fetchAndSave` stores for an item is a prefix of the
sanitized source text (the item's content, or its description when the content is empty),
is at most 4096 bytes and so at most 4096 characters long, and is the sanitized text itself
when that is at most 4096 bytes long; every row that a fetch adds is built that way. -/
theorem stored_content_bounded :
    (∀ (s : GoString) (max : Nat),
      (s.length ≤ max → TrimString s max = s) ∧
      (max < s.length → TrimString s max = s.take max)) ∧
    (∀ (env : FetchEnv) (url : GoString) (item : Item),
      (newArticle env url item).Content <+: sourceText env item ∧
      (newArticle env url item).Content.length ≤ 4096 ∧
      runeCount (newArticle env url item).Content ≤ 4096 ∧
      ((sourceText env item).length ≤ 4096 →
        (newArticle env url item).Content = sourceText env item)) ∧
    (∀ (env : FetchEnv) (db : DB) (url : GoString), ∃ added : List Article,
      (fetchAndSave env db url).1 = db ++ added ∧
      ∀ r ∈ added, ∃ item, r = newArticle env url item) := by
  have htrim : ∀ (s : GoString) (max : Nat),
      (s.length ≤ max → TrimString s max = s) ∧
      (max < s.length → TrimString s max = s.take max) := by
    intro s max
    constructor
    · intro h
      have : ¬ s.length > max := by omega
      simp only [TrimString, this, if_false]
    · intro h
      have : s.length > max := h
      simp only [TrimString, this, if_true]
  refine ⟨htrim, ?_, fetchAndSave_added⟩
  intro env url item
  have hc : (newArticle env url item).Content =
      TrimString (sourceText env item) MAX_DB_CONTENT_LENGTH := rfl
  have hlen : (TrimString (sourceText env item) MAX_DB_CONTENT_LENGTH).length ≤ 4096 := by
    by_cases h : (sourceText env item).length ≤ 4096
    · rw [(htrim _ MAX_DB_CONTENT_LENGTH).1 h]; exact h
    · rw [(htrim _ MAX_DB_CONTENT_LENGTH).2 (by simp only [MAX_DB_CONTENT_LENGTH]; omega)]
      simp only [List.length_take, MAX_DB_CONTENT_LENGTH]
      omega
  rw [hc]
  exact ⟨trimString_initial _ _, hlen, le_trans (runeCount_le _) hlen,
    fun h => (htrim _ MAX_DB_CONTENT_LENGTH).1 h⟩

/-- Witness for claim C20: a text of six bytes trimmed to three. -/
theorem stored_content_bounded_witness :
    TrimString (str "abcdef") 3 = (str "abcdef").take 3 :=
  (stored_content_bounded.1 (str "abcdef") 3).2 (by decide)

/-! ## Listing -/

theorem saveArticle_ok (d d1 : DB) (a : Article) (h : DB.SaveArticle d a = .ok d1) :
    a.GUID ∉ guids d ∧ d1 = d ++ [{ a with Reported := false }] := by
  unfold DB.SaveArticle at h
  split at h
  · cases h
  · rename_i hn
    cases h
    exact ⟨fun hc => hn ((any_guid_iff d a.GUID).2 hc), rfl⟩

theorem listArticles_eq (d : DB) (limit : Int) :
    DB.ListArticles d limit =
      .ok (if limit < 0 then d.insertionSort newerFirst
        else (d.insertionSort newerFirst).take limit.toNat) := by
  simp [DB.ListArticles, DB.ListArticlesFiltered]

theorem filter_guid_absent (d : DB) (g : GoString) (h : g ∉ guids d) :
    d.filter (fun r => decide (r.GUID = g)) = [] := by
  rw [List.filter_eq_nil_iff]
  intro r hr hc
  simp only [decide_eq_true_eq] at hc
  exact h (hc ▸ List.mem_map.2 ⟨r, hr, rfl⟩)

/-- Claim C21. `SaveArticle(a)` succeeds only when the guid of `a` is not in the store; after
it has succeeded, `ListArticles(limit)` with `limit` at least the number of rows returns all
rows, among them exactly one with the guid of `a`, and that row has the guid, title and
score of `a` (and all its other columns, with `reported = false`); the list is ordered by
published date, newest first, and has at most `limit` rows. -/
theorem saveArticle_listArticles_roundtrip (d d1 : DB) (a : Article) (limit : Int)
    (hsave : DB.SaveArticle d a = .ok d1) (hlimit : (d1.length : Int) ≤ limit) :
    a.GUID ∉ guids d ∧
    ∃ l, DB.ListArticles d1 limit = .ok l ∧
      l.filter (fun r => decide (r.GUID = a.GUID)) = [{ a with Reported := false }] ∧
      (∀ r ∈ l, r.GUID = a.GUID → r.Title = a.Title ∧ r.Score = a.Score) ∧
      l.Sorted newerFirst ∧ (l.length : Int) ≤ limit ∧ l.Perm d1 := by
  obtain ⟨hnew, hd1⟩ := saveArticle_ok d d1 a hsave
  have hnn : ¬ limit < 0 := by
    have : (0 : Int) ≤ (d1.length : Int) := Int.natCast_nonneg _
    omega
  have hlen : (d1.insertionSort newerFirst).length ≤ limit.toNat := by
    rw [List.length_insertionSort]
    omega
  have hl : DB.ListArticles d1 limit = .ok (d1.insertionSort newerFirst) := by
    rw [listArticles_eq, if_neg hnn, List.take_of_length_le hlen]
  have hfilter : (d1.insertionSort newerFirst).filter (fun r => decide (r.GUID = a.GUID)) =
      [{ a with Reported := false }] := by
    rw [← insertionSort_filter, hd1, List.filter_append, filter_guid_absent d a.GUID hnew]
    simp [List.filter]
  refine ⟨hnew, _, hl, hfilter, ?_, List.sorted_insertionSort newerFirst d1, ?_,
    List.perm_insertionSort newerFirst d1⟩
  · intro r hr hg
    have hin : r ∈ (d1.insertionSort newerFirst).filter (fun r => decide (r.GUID = a.GUID)) :=
      List.mem_filter.2 ⟨hr, by simpa using hg⟩
    rw [hfilter] at hin
    rw [List.mem_singleton.1 hin]
    exact ⟨rfl, rfl⟩
  · rw [List.length_insertionSort]
    exact hlimit

/-- Witness for claim C21: the first sample row saved into the `Foo` store and listed with
the limit 1000 of the `list` command. -/
theorem saveArticle_listArticles_roundtrip_witness :
    ∃ l, DB.ListArticles (fooStore ++ [scoredRowA]) 1000 = .ok l ∧
      l.filter (fun r => decide (r.GUID = scoredRowA.GUID)) =
        [{ scoredRowA with Reported := false }] ∧
      (∀ r ∈ l, r.GUID = scoredRowA.GUID →
        r.Title = scoredRowA.Title ∧ r.Score = scoredRowA.Score) ∧
      l.Sorted newerFirst ∧ (l.length : Int) ≤ 1000 ∧ l.Perm (fooStore ++ [scoredRowA]) :=
  (saveArticle_listArticles_roundtrip fooStore (fooStore ++ [scoredRowA]) scoredRowA 1000
    (by decide) (by decide)).2

/-! ## Scores beyond the range of int -/

theorem extractScore_labelled (ds : GoString) (hne : ds ≠ [])
    (hd : ∀ b ∈ ds, isDigit b = true) : extractScore (str "score" ++ 58 :: ds) = ds := by
  have hlab : IsLabel (str "score") := Or.inl (foldSpelling_of_match _ _ (by decide))
  have hat : scoreRegexAt (str "score" ++ 58 :: ([] ++ ds ++ [])) = some ds :=
    scoreRegexAt_complete (str "score") [] ds [] hlab (by simp) hne hd
      (by intro b hb; simp at hb)
  simp only [List.nil_append, List.append_nil] at hat
  have hfind := scoreRegexFind_leftmost [] _ ds hat (fun _ _ => Nat.zero_le _)
  simp only [List.nil_append] at hfind
  simp only [extractScore, hfind]

/-- Claim C23. A score that is a run of decimal digits with a value of 2^63 or more counts
as 0 in the filter of `generateReport`: its article is left out for every threshold above 0
and kept for every threshold of 0 or below. Such scores occur: extraction returns the whole
digit run after a label whatever its length, and a store with a score of twenty digits
arises from the empty store by one fetch and one scoring run. -/
theorem scoreOrZero_out_of_range (ds : GoString) (hne : ds ≠ [])
    (hd : ∀ b ∈ ds, isDigit b = true) (hbig : 2 ^ 63 ≤ digitsValue ds) :
    scoreOrZero ds = 0 ∧
    (∀ (thr : Int) (articles : List Article) (art : Article), art ∈ articles →
      art.Score = ds →
      (0 < thr → art ∉ validArticles thr articles) ∧
        (thr ≤ 0 → art ∈ validArticles thr articles)) ∧
    extractScore (str "score" ++ 58 :: ds) = ds ∧
    (Reachable hugeStore ∧ ∃ a ∈ hugeStore, a.Score = str "10000000000000000000" ∧
      2 ^ 63 ≤ digitsValue a.Score) := by
  have hz : scoreOrZero ds = 0 := by
    have hout : ¬ InIntRange (digitsValue ds : Int) := by
      unfold InIntRange
      intro h
      have h2 := h.2
      have : ((2 : Nat) ^ 63 : Int) ≤ (digitsValue ds : Int) := by exact_mod_cast hbig
      norm_num at h2 this
      omega
    simp only [scoreOrZero, Atoi_unsigned ds hne hd, rangeCheck_out _ hout]
  refine ⟨hz, ?_, extractScore_labelled ds hne hd, ?_, ?_⟩
  · intro thr articles art hmem hscore
    rw [validArticles_eq_filter]
    constructor
    · intro hpos hin
      have := (List.mem_filter.1 hin).2
      simp only [hscore, hz, decide_eq_true_eq] at this
      omega
    · intro hle
      exact List.mem_filter.2 ⟨hmem, by simp only [hscore, hz, decide_eq_true_eq]; exact hle⟩
  · exact Reachable.score hugeScoreEnv [] false
      (Reachable.fetch demoFetchEnv (str "u") Reachable.empty)
  · decide

/-- Witness for claim C23: the score 2^63 = 9223372036854775808. -/
theorem scoreOrZero_out_of_range_witness : scoreOrZero (str "9223372036854775808") = 0 :=
  (scoreOrZero_out_of_range (str "9223372036854775808") (by decide) (by decide)
    (by decide)).1

/-! ## The scheduler loop -/

theorem fetchPhase_ok (flags : RunFlags) (env : CycleEnv) (st st1 : RunState)
    (h : fetchPhase flags env st = .ok st1) :
    st1.trace = st.trace ++ (if !flags.noFetch then [Event.fetch] else []) := by
  unfold fetchPhase at h
  cases hf : flags.noFetch with
  | true =>
    simp only [hf, Bool.not_true, Bool.false_eq_true, if_false] at h ⊢
    cases h
    simp
  | false =>
    simp only [hf, Bool.not_false, if_true] at h ⊢
    rcases hr : fetchAndSave env.fetch st.db flags.feed_url with ⟨db1, r⟩
    rw [hr] at h
    cases r with
    | error e => cases h
    | ok stats => cases h; rfl

theorem fetchPhase_error (flags : RunFlags) (env : CycleEnv) (st st1 : RunState)
    (h : fetchPhase flags env st = .error st1) :
    flags.noFetch = false ∧ ∃ e, IsExit e ∧ st1.trace = st.trace ++ [Event.fetch, e] := by
  unfold fetchPhase at h
  cases hf : flags.noFetch with
  | true =>
    simp only [hf, Bool.not_true, Bool.false_eq_true, if_false] at h
    cases h
  | false =>
    simp only [hf, Bool.not_false, if_true] at h
    rcases hr : fetchAndSave env.fetch st.db flags.feed_url with ⟨db1, r⟩
    rw [hr] at h
    cases r with
    | error e => cases h; exact ⟨rfl, _, Or.inl ⟨_, rfl⟩, rfl⟩
    | ok stats => cases h

theorem scorePhase_ok (flags : RunFlags) (env : CycleEnv) (st st1 : RunState)
    (h : scorePhase flags env st = .ok st1) :
    st1.trace = st.trace ++ (if !flags.noScore then [Event.score] else []) := by
  unfold scorePhase at h
  cases hf : flags.noScore with
  | true =>
    simp only [hf, Bool.not_true, Bool.false_eq_true, if_false] at h ⊢
    cases h
    simp
  | false =>
    simp only [hf, Bool.not_false, if_true] at h ⊢
    rcases hr : scoreArticles env.score st.db [] false with ⟨db1, r⟩
    rw [hr] at h
    cases r with
    | error e => cases h
    | panic m => cases h
    | ok => cases h; rfl

theorem scorePhase_error (flags : RunFlags) (env : CycleEnv) (st st1 : RunState)
    (h : scorePhase flags env st = .error st1) :
    flags.noScore = false ∧ ∃ e, IsExit e ∧ st1.trace = st.trace ++ [Event.score, e] := by
  unfold scorePhase at h
  cases hf : flags.noScore with
  | true =>
    simp only [hf, Bool.not_true, Bool.false_eq_true, if_false] at h
    cases h
  | false =>
    simp only [hf, Bool.not_false, if_true] at h
    rcases hr : scoreArticles env.score st.db [] false with ⟨db1, r⟩
    rw [hr] at h
    cases r with
    | error e => cases h; exact ⟨rfl, _, Or.inl ⟨_, rfl⟩, rfl⟩
    | panic m => cases h; exact ⟨rfl, _, Or.inr ⟨_, rfl⟩, rfl⟩
    | ok => cases h

theorem reportPhase_ok (flags : RunFlags) (env : CycleEnv) (st st1 : RunState)
    (h : reportPhase flags env st = .ok st1) :
    st1.trace = st.trace ++ (if !flags.noReport then [Event.report] else []) := by
  unfold reportPhase at h
  cases hf : flags.noReport with
  | true =>
    simp only [hf, Bool.not_true, Bool.false_eq_true, if_false] at h ⊢
    cases h
    simp
  | false =>
    simp only [hf, Bool.not_false, if_true] at h ⊢
    rcases hr : generateReport env.report st.db with ⟨db1, r⟩
    rw [hr] at h
    cases r with
    | error e => cases h
    | panic m => cases h
    | ok => cases h; rfl

theorem reportPhase_error (flags : RunFlags) (env : CycleEnv) (st st1 : RunState)
    (h : reportPhase flags env st = .error st1) :
    flags.noReport = false ∧ ∃ e, IsExit e ∧ st1.trace = st.trace ++ [Event.report, e] := by
  unfold reportPhase at h
  cases hf : flags.noReport with
  | true =>
    simp only [hf, Bool.not_true, Bool.false_eq_true, if_false] at h
    cases h
  | false =>
    simp only [hf, Bool.not_false, if_true] at h
    rcases hr : generateReport env.report st.db with ⟨db1, r⟩
    rw [hr] at h
    cases r with
    | error e => cases h; exact ⟨rfl, _, Or.inl ⟨_, rfl⟩, rfl⟩
    | panic m => cases h; exact ⟨rfl, _, Or.inr ⟨_, rfl⟩, rfl⟩
    | ok => cases h

theorem runCycle_ok_trace (flags : RunFlags) (env : CycleEnv) (st st1 : RunState)
    (h : runCycle flags env st = .ok st1) :
    st1.trace = st.trace ++ Event.cycle :: enabled flags := by
  unfold runCycle at h
  cases h1 : fetchPhase flags env { st with trace := st.trace ++ [.cycle] } with
  | error s => rw [h1] at h; cases h
  | ok s1 =>
    rw [h1] at h
    simp only [] at h
    cases h2 : scorePhase flags env s1 with
    | error s => rw [h2] at h; cases h
    | ok s2 =>
      rw [h2] at h
      simp only [] at h
      rw [reportPhase_ok flags env s2 st1 h, scorePhase_ok flags env s1 s2 h2,
        fetchPhase_ok flags env _ s1 h1]
      simp [enabled]

theorem runCycle_error_trace (flags : RunFlags) (env : CycleEnv) (st st1 : RunState)
    (h : runCycle flags env st = .error st1) :
    ∃ ran e, ran <+: enabled flags ∧ ran ≠ [] ∧ IsExit e ∧
      st1.trace = st.trace ++ Event.cycle :: (ran ++ [e]) := by
  unfold runCycle at h
  cases h1 : fetchPhase flags env { st with trace := st.trace ++ [.cycle] } with
  | error s =>
    rw [h1] at h
    cases h
    obtain ⟨hf, e, he, ht⟩ := fetchPhase_error flags env _ _ h1
    refine ⟨[Event.fetch], e, ?_, by simp, he, by simp [ht]⟩
    exact ⟨(if !flags.noScore then [Event.score] else []) ++
      (if !flags.noReport then [Event.report] else []), by simp [enabled, hf]⟩
  | ok s1 =>
    rw [h1] at h
    simp only [] at h
    have t1 := fetchPhase_ok flags env _ s1 h1
    cases h2 : scorePhase flags env s1 with
    | error s =>
      rw [h2] at h
      cases h
      obtain ⟨hf, e, he, ht⟩ := scorePhase_error flags env _ _ h2
      refine ⟨(if !flags.noFetch then [Event.fetch] else []) ++ [Event.score], e, ?_,
        by simp, he, by simp [ht, t1]⟩
      exact ⟨if !flags.noReport then [Event.report] else [], by simp [enabled, hf]⟩
    | ok s2 =>
      rw [h2] at h
      simp only [] at h
      have t2 := scorePhase_ok flags env s1 s2 h2
      obtain ⟨hf, e, he, ht⟩ := reportPhase_error flags env _ _ h
      refine ⟨enabled flags, e, List.prefix_refl _, ?_, he, ?_⟩
      · simp [enabled, hf]
      · simp [ht, t2, t1, enabled, hf]

theorem cyclesStarted_enabled (flags : RunFlags) : cyclesStarted (enabled flags) = 0 := by
  rcases flags with ⟨i, ns, nf, nr, sv, url⟩
  cases ns <;> cases nf <;> cases nr <;> rfl

theorem enabled_sublist (flags : RunFlags) :
    (enabled flags).Sublist [Event.fetch, Event.score, Event.report] := by
  rcases flags with ⟨i, ns, nf, nr, sv, url⟩
  cases ns <;> cases nf <;> cases nr <;> simp [enabled]

theorem enabled_mem (flags : RunFlags) :
    (Event.fetch ∈ enabled flags ↔ flags.noFetch = false) ∧
    (Event.score ∈ enabled flags ↔ flags.noScore = false) ∧
    (Event.report ∈ enabled flags ↔ flags.noReport = false) := by
  rcases flags with ⟨i, ns, nf, nr, sv, url⟩
  cases ns <;> cases nf <;> cases nr <;> simp [enabled]

theorem cyclesStarted_exit (e : Event) (h : IsExit e) : cyclesStarted [e] = 0 := by
  rcases h with ⟨m, rfl⟩ | ⟨m, rfl⟩ <;> rfl

theorem runCycle_ok_cycles (flags : RunFlags) (env : CycleEnv) (st st1 : RunState)
    (h : runCycle flags env st = .ok st1) :
    cyclesStarted st1.trace = cyclesStarted st.trace + 1 := by
  rw [runCycle_ok_trace flags env st st1 h]
  have h0 := cyclesStarted_enabled flags
  simp only [cyclesStarted, List.count_append, List.count_cons_self] at h0 ⊢
  omega

theorem runCycle_error_cycles (flags : RunFlags) (env : CycleEnv) (st st1 : RunState)
    (h : runCycle flags env st = .error st1) :
    cyclesStarted st1.trace = cyclesStarted st.trace + 1 := by
  obtain ⟨ran, e, hp, _, he, ht⟩ := runCycle_error_trace flags env st st1 h
  rw [ht]
  have h0 := cyclesStarted_enabled flags
  have h1 : List.count Event.cycle ran ≤ List.count Event.cycle (enabled flags) :=
    hp.sublist.count_le _
  have h2 := cyclesStarted_exit e he
  simp only [cyclesStarted, List.count_append, List.count_cons_self] at h0 h2 ⊢
  omega

theorem runLoop_once (flags : RunFlags) (world : Nat → CycleEnv) (fuel n : Nat) (st : RunState)
    (hint : flags.runInterval = 0) (hserve : flags.runServe = false) :
    ((runLoop flags world (fuel + 1) n st).2 = .finished ∨
      (runLoop flags world (fuel + 1) n st).2 = .exited) ∧
    cyclesStarted (runLoop flags world (fuel + 1) n st).1.trace = cyclesStarted st.trace + 1 ∧
    ((runLoop flags world (fuel + 1) n st).2 = .finished →
      (runLoop flags world (fuel + 1) n st).1.trace =
        st.trace ++ Event.cycle :: (enabled flags ++ [Event.finished])) ∧
    (∀ st1, runCycle flags (world n) st = .ok st1 →
      (runLoop flags world (fuel + 1) n st).2 = .finished) := by
  cases hc : runCycle flags (world n) st with
  | error st1 =>
    have hr : runLoop flags world (fuel + 1) n st = (st1, .exited) := by
      simp only [runLoop, hc]
    rw [hr]
    refine ⟨Or.inr rfl, runCycle_error_cycles flags _ st st1 hc, ?_, ?_⟩
    · intro h; cases h
    · intro st2 h2; cases h2
  | ok st1 =>
    have hr : runLoop flags world (fuel + 1) n st =
        ({ st1 with trace := st1.trace ++ [.finished] }, .finished) := by
      simp only [runLoop, hc, hint, hserve, if_true, Bool.false_eq_true, if_false]
    rw [hr]
    refine ⟨Or.inl rfl, ?_, ?_, fun _ _ => rfl⟩
    · have h1 := runCycle_ok_cycles flags _ st st1 hc
      simp only [cyclesStarted, List.count_append] at h1 ⊢
      have : List.count Event.cycle [Event.finished] = 0 := rfl
      omega
    · intro _
      simp only [runCycle_ok_trace flags _ st st1 hc]
      simp

theorem runLoop_never_returns (flags : RunFlags) (world : Nat → CycleEnv)
    (hint : flags.runInterval ≠ 0) (fuel n : Nat) (st : RunState) :
    (runLoop flags world fuel n st).2 = .running ∨
      (runLoop flags world fuel n st).2 = .exited := by
  induction fuel generalizing n st with
  | zero => exact Or.inl rfl
  | succ fuel ih =>
    cases hc : runCycle flags (world n) st with
    | error st1 =>
      right
      simp only [runLoop, hc]
    | ok st1 =>
      simp only [runLoop, hc, hint, if_false]
      exact ih _ _

theorem runLoop_clean (flags : RunFlags) (world : Nat → CycleEnv)
    (hint : flags.runInterval ≠ 0)
    (hclean : ∀ n st, ∃ st1, runCycle flags (world n) st = .ok st1) (fuel n : Nat)
    (st : RunState) :
    (runLoop flags world fuel n st).2 = .running ∧
      (runLoop flags world fuel n st).1.trace = st.trace ++ cleanTrace flags fuel := by
  induction fuel generalizing n st with
  | zero => exact ⟨rfl, by simp [runLoop, cleanTrace]⟩
  | succ fuel ih =>
    obtain ⟨st1, hc⟩ := hclean n st
    have hr : runLoop flags world (fuel + 1) n st = runLoop flags world fuel (n + 1)
        { st1 with trace := st1.trace ++ [.sleep flags.runInterval] } := by
      simp only [runLoop, hc, hint, if_false]
    rw [hr]
    obtain ⟨h1, h2⟩ := ih (n + 1) { st1 with trace := st1.trace ++ [.sleep flags.runInterval] }
    refine ⟨h1, ?_⟩
    rw [h2]
    simp only [runCycle_ok_trace flags _ st st1 hc, cleanTrace]
    simp

/-- Claim C22, as worded, fails when a phase returns an error: with the default flags and an
unreachable feed the fetch error is fatal, so the score and report phases do not run in that
cycle although neither `no-score` nor `no-report` is set. -/
theorem runScraper_fatal_counterexample :
    defaultRunFlags.noScore = false ∧ defaultRunFlags.noReport = false ∧
    runScraper defaultRunFlags downWorld 1 [] =
      ({ db := [],
         trace := [Event.cycle, Event.fetch, Event.fatal "Error fetching feed: no such host"] },
        RunEnd.exited) ∧
    Event.score ∉ (runScraper defaultRunFlags downWorld 1 []).1.trace ∧
    Event.report ∉ (runScraper defaultRunFlags downWorld 1 []).1.trace := by
  decide

/-- Claim C22, amended: the scheduler of `runScraper`. With interval 0 and no web server exactly
one cycle is started and the run then ends, normally when every phase returned nil and by a fatal
exit otherwise. A cycle whose phases all return nil runs exactly the phases whose flag is not
set, in the order fetch, score, report; a cycle in which a phase fails runs a non-empty initial
part of them and then ends the process. With a non-zero interval the loop never finishes or
blocks: it only stops through such a fatal exit, and while the phases return nil every sleep is
followed by a new cycle. -/
theorem runScraper_cycles (flags : RunFlags) (world : Nat → CycleEnv) (db : DB) :
    (flags.runInterval = 0 → flags.runServe = false → ∀ fuel,
      ((runScraper flags world (fuel + 1) db).2 = .finished ∨
        (runScraper flags world (fuel + 1) db).2 = .exited) ∧
      cyclesStarted (runScraper flags world (fuel + 1) db).1.trace = 1 ∧
      ((runScraper flags world (fuel + 1) db).2 = .finished →
        (runScraper flags world (fuel + 1) db).1.trace =
          Event.cycle :: (enabled flags ++ [Event.finished])) ∧
      (∀ st1, runCycle flags (world 0) { db := db, trace := [] } = .ok st1 →
        (runScraper flags world (fuel + 1) db).2 = .finished)) ∧
    ((enabled flags).Sublist [Event.fetch, Event.score, Event.report] ∧
      (Event.fetch ∈ enabled flags ↔ flags.noFetch = false) ∧
      (Event.score ∈ enabled flags ↔ flags.noScore = false) ∧
      (Event.report ∈ enabled flags ↔ flags.noReport = false)) ∧
    (∀ env st st1,
      (runCycle flags env st = .ok st1 → st1.trace = st.trace ++ Event.cycle :: enabled flags) ∧
      (runCycle flags env st = .error st1 →
        ∃ ran e, ran <+: enabled flags ∧ ran ≠ [] ∧ IsExit e ∧
          st1.trace = st.trace ++ Event.cycle :: (ran ++ [e]))) ∧
    (flags.runInterval ≠ 0 → ∀ fuel,
      ((runScraper flags world fuel db).2 = .running ∨
        (runScraper flags world fuel db).2 = .exited) ∧
      ((∀ n st, ∃ st1, runCycle flags (world n) st = .ok st1) →
        (runScraper flags world fuel db).2 = .running ∧
        (runScraper flags world fuel db).1.trace =
          (if flags.runServe then [Event.serve] else []) ++ cleanTrace flags fuel)) := by
  refine ⟨?_, ⟨enabled_sublist flags, enabled_mem flags⟩, ?_, ?_⟩
  · intro hint hserve fuel
    have h := runLoop_once flags world fuel 0 { db := db, trace := [] } hint hserve
    simpa [runScraper, hserve, cyclesStarted] using h
  · intro env st st1
    exact ⟨runCycle_ok_trace flags env st st1, runCycle_error_trace flags env st st1⟩
  · intro hint fuel
    exact ⟨runLoop_never_returns flags world hint fuel 0 _,
      fun hclean => runLoop_clean flags world hint hclean fuel 0 _⟩

/-- Fetching the sample feed every second with scoring and reporting switched off: after two
cycles the loop is still running and each sleep was followed by a new cycle. -/
theorem runScraper_cycles_witness :
    (runScraper fetchOnlyFlags demoWorld 2 []).2 = .running ∧
    (runScraper fetchOnlyFlags demoWorld 2 []).1.trace =
      (if fetchOnlyFlags.runServe then [Event.serve] else []) ++ cleanTrace fetchOnlyFlags 2 :=
  ((runScraper_cycles fetchOnlyFlags demoWorld []).2.2.2 (by decide) 2).2
    (fun n st => by
      obtain ⟨db1, stats, h⟩ : ∃ db1 stats,
          fetchAndSave (demoWorld n).fetch st.db fetchOnlyFlags.feed_url = (db1, .ok stats) := by
        simp [fetchAndSave, demoWorld, demoFetchEnv]
      exact ⟨_, by simp [runCycle, fetchPhase, scorePhase, reportPhase, fetchOnlyFlags, h]; rfl⟩)

end Scraper
